import Mathlib

/-!
# The text console and keyboard decoder of `kernel.c`

A shallow embedding of the display surface (`terminal_*`, `print_centered`,
`set_fullscreen_green`), of the scan-code decoder (`get_keyboard_input`), of
the command handlers and `process_command`, and of the loops of `shell` and the
start of `kernel_main` of `src/kernel.c`, followed by the properties proved
about them.

Conventions of the embedding.

* `size_t` values are natural numbers taken modulo `sz`, the number of values
  of `size_t` (`SIZE_MAX + 1`).  `<stddef.h>` is not part of the sources, so
  `sz` is a parameter; C guarantees `65536 ≤ sz`.
* `uint8_t` and `char` values are naturals below 256 (the byte), `uint16_t`
  values naturals below 65536.
* `terminal_buffer` is a pointer to `uint16_t`; the memory it points to is a
  function from the cell index to the 16-bit cell, the first `80 * 25`
  indices being the visible grid.  The address of `terminal_buffer[index]` is
  `0xB8000 + 2 * index` in a pointer as wide as `size_t`, so it wraps modulo
  `sz`: indices that differ by a multiple of `sz / 2` name the same cell, and
  a store through `index` is a store to the cell `index % (sz / 2)`
  (`cell_index`).  The cells from `80 * 25` on are the memory around the grid.
* Writes to I/O ports are appended to `port_log`.
* `scroll_calls` is a ghost counter of the calls of `terminal_scroll`; no
  function reads it.
-/

namespace Kernel

/-! ## Constants -/

/-- The macro `VGA_WIDTH`. -/
def VGA_WIDTH : Nat := 80

/-- The macro `VGA_HEIGHT`. -/
def VGA_HEIGHT : Nat := 25

/-- The macro `VGA_COLOR_GREEN`. -/
def VGA_COLOR_GREEN : Nat := 2

/-- The macro `VGA_COLOR_WHITE`. -/
def VGA_COLOR_WHITE : Nat := 15

/-! ## State -/

/-- The globals `terminal_row`, `terminal_column`, `terminal_color` and the
memory behind `terminal_buffer`, with the log of port writes and the ghost
counter of scrolls. -/
structure Terminal where
  terminal_row : Nat
  terminal_column : Nat
  terminal_color : Nat
  terminal_buffer : Nat → Nat
  port_log : List (Nat × Nat)
  scroll_calls : Nat

/-- The store `terminal_buffer[index] = value`. -/
def write_cell (buf : Nat → Nat) (index value : Nat) : Nat → Nat :=
  fun i => if i = index then value else buf i

/-- The cell that `terminal_buffer[index]` names for a `size_t` index: the
address `0xB8000 + 2 * index` wraps modulo `sz`, so the index counts modulo
`sz / 2`. -/
def cell_index (sz index : Nat) : Nat := index % (sz / 2)

/-- The value of a plain `char` after integer promotion, as seen in the low 16
bits: plain `char` is signed on x86 (the only target of the inline assembly of
this file), so a byte of 128 or more is a negative `int` whose bits 8 to 15 are
all set. -/
def char_promote16 (c : Nat) : Nat :=
  if c < 128 then c else 0xFF00 + c

/-- The expression `((uint16_t)color << 8) | c` stored into a `uint16_t`. -/
def vga_entry (color c : Nat) : Nat :=
  ((color <<< 8) ||| char_promote16 c) % 65536

/-- The character byte of a cell (its low byte). -/
def cell_char (v : Nat) : Nat := v % 256

/-- The attribute byte of a cell (its high byte). -/
def cell_attr (v : Nat) : Nat := v / 256

/-! ## Port output and the hardware cursor -/

/-- The function `outb`: one byte written to one port. -/
def outb (t : Terminal) (port val : Nat) : Terminal :=
  { t with port_log := t.port_log ++ [(port, val % 256)] }

/-- The function `update_cursor`. -/
def update_cursor (sz : Nat) (t : Terminal) : Terminal :=
  let pos := ((t.terminal_row * VGA_WIDTH + t.terminal_column) % sz) % 65536
  let t := outb t 0x3D4 14
  let t := outb t 0x3D5 ((pos >>> 8) &&& 0xFF)
  let t := outb t 0x3D4 15
  outb t 0x3D5 (pos &&& 0xFF)

/-! ## String functions -/

/-- The function `strlen`: a C string is the list of its bytes before the
terminating zero. -/
def strlen (str : List Nat) : Nat := str.length

/-! ## Terminal functions -/

/-- The inner loop of `terminal_clear` and of `set_fullscreen_green` for the
row `y`: every cell of the row is set to `value`. -/
def fill_row (value y : Nat) (buf : Nat → Nat) : Nat → Nat :=
  (List.range VGA_WIDTH).foldl
    (fun b x => write_cell b (y * VGA_WIDTH + x) value) buf

/-- The function `terminal_clear`. -/
def terminal_clear (t : Terminal) : Terminal :=
  let buf := (List.range VGA_HEIGHT).foldl
    (fun b y => fill_row (vga_entry t.terminal_color 32) y b) t.terminal_buffer
  { t with terminal_buffer := buf, terminal_row := 0, terminal_column := 0 }

/-- The inner loop of the first loop of `terminal_scroll` for the row `y`:
every cell of the row receives the cell below it. -/
def copy_row_up (y : Nat) (buf : Nat → Nat) : Nat → Nat :=
  (List.range VGA_WIDTH).foldl
    (fun b x => write_cell b (y * VGA_WIDTH + x) (b ((y + 1) * VGA_WIDTH + x))) buf

/-- The function `terminal_scroll`. -/
def terminal_scroll (t : Terminal) : Terminal :=
  let buf := (List.range (VGA_HEIGHT - 1)).foldl (fun b y => copy_row_up y b)
    t.terminal_buffer
  let buf := fill_row (vga_entry t.terminal_color 32) (VGA_HEIGHT - 1) buf
  { t with terminal_buffer := buf, terminal_row := VGA_HEIGHT - 1,
           scroll_calls := t.scroll_calls + 1 }

/-- The statements `if (++terminal_row == VGA_HEIGHT) terminal_scroll();`. -/
def next_row (sz : Nat) (t : Terminal) : Terminal :=
  let t := { t with terminal_row := (t.terminal_row + 1) % sz }
  if t.terminal_row = VGA_HEIGHT then terminal_scroll t else t

/-- The function `terminal_putchar`. -/
def terminal_putchar (sz : Nat) (t : Terminal) (c : Nat) : Terminal :=
  let t :=
    if c = 10 then
      next_row sz { t with terminal_column := 0 }
    else
      let index := (t.terminal_row * VGA_WIDTH + t.terminal_column) % sz
      let cell := vga_entry t.terminal_color c
      let t := { t with terminal_buffer := write_cell t.terminal_buffer (cell_index sz index) cell }
      let t := { t with terminal_column := (t.terminal_column + 1) % sz }
      if t.terminal_column = VGA_WIDTH then
        next_row sz { t with terminal_column := 0 }
      else t
  update_cursor sz t

/-- The function `terminal_print`: `terminal_putchar` on every byte of the
string, in order. -/
def terminal_print (sz : Nat) (t : Terminal) (data : List Nat) : Terminal :=
  data.foldl (fun t c => terminal_putchar sz t c) t

/-- The function `set_fullscreen_green`. -/
def set_fullscreen_green (t : Terminal) : Terminal :=
  let green_bg_white_fg := ((VGA_COLOR_GREEN <<< 4) ||| VGA_COLOR_WHITE) % 256
  let buf := (List.range VGA_HEIGHT).foldl
    (fun b y => fill_row (vga_entry green_bg_white_fg 32) y b) t.terminal_buffer
  { t with terminal_buffer := buf }

/-- The function `print_centered`; the subtraction `VGA_WIDTH - text_len` is
one of `size_t`, so it wraps modulo `sz`. -/
def print_centered (sz : Nat) (t : Terminal) (text : List Nat) (row : Nat) : Terminal :=
  let text_len := strlen text
  let start_col := ((VGA_WIDTH + sz - text_len % sz) % sz) / 2
  let t := { t with terminal_row := row, terminal_column := start_col }
  terminal_print sz t text

/-- The function `cmd_echo`. -/
def cmd_echo (sz : Nat) (t : Terminal) (args : List Nat) : Terminal :=
  if strlen args > 0 then
    let t := set_fullscreen_green t
    let t := print_centered sz t args 12
    { t with terminal_row := 20, terminal_column := 0 }
  else t

/-! ## Keyboard decoder -/

/-- The table `scancode_to_ascii` of `get_keyboard_input`. -/
def scancode_to_ascii : List Nat :=
  [0, 0, 49, 50, 51, 52, 53, 54, 55, 56, 57, 48, 45, 61, 8,
   9, 113, 119, 101, 114, 116, 121, 117, 105, 111, 112, 91, 93, 10,
   0, 97, 115, 100, 102, 103, 104, 106, 107, 108, 59, 39, 96,
   0, 92, 122, 120, 99, 118, 98, 110, 109, 44, 46, 47, 0,
   42, 0, 32]

/-- The function `get_keyboard_input`: `scancode` is the byte read from the
keyboard data port, `key_pressed` the static table of the function; the
result is the returned character and the table afterwards. -/
def get_keyboard_input (key_pressed : Nat → Nat) (scancode : Nat) :
    Nat × (Nat → Nat) :=
  if scancode &&& 0x80 ≠ 0 then
    (0, fun i => if i = scancode &&& 0x7F then 0 else key_pressed i)
  else if key_pressed scancode = 0 then
    let key_pressed := fun i => if i = scancode then 1 else key_pressed i
    if scancode < scancode_to_ascii.length then
      (scancode_to_ascii.getD scancode 0, key_pressed)
    else (0, key_pressed)
  else (0, key_pressed)

/-! ## Predicates used by the statements -/

/-- The cursor is inside the grid. -/
def in_bounds (t : Terminal) : Prop :=
  t.terminal_row < VGA_HEIGHT ∧ t.terminal_column < VGA_WIDTH

instance (t : Terminal) : Decidable (in_bounds t) :=
  inferInstanceAs (Decidable (_ ∧ _))

/-- The linear offset `row * 80 + column` of the cursor. -/
def cursor_offset (t : Terminal) : Nat :=
  t.terminal_row * VGA_WIDTH + t.terminal_column

/-- A terminal with an all-zero buffer, the cursor at the origin and the
initial attribute 7 of `terminal_color`. -/
def boot_terminal : Terminal :=
  { terminal_row := 0, terminal_column := 0, terminal_color := 7,
    terminal_buffer := fun _ => 0, port_log := [], scroll_calls := 0 }

/-- A terminal with the cursor on the bottom row, for the instances. -/
def bottom_terminal : Terminal :=
  { boot_terminal with terminal_row := 24, terminal_column := 5 }


/-! ## String literals

Every literal of the source is the list of its bytes. -/

/-- The literal `"NixOS Commands:"`, the header printed by `cmd_help`. -/
def str_help_header : List Nat :=
  [78, 105, 120, 79, 83, 32, 67, 111, 109, 109, 97, 110, 100, 115, 58]

/-- The literal `"help    - Show this help message"`, the first description of `cmd_help`. -/
def str_help_help : List Nat :=
  [104, 101, 108, 112, 32, 32, 32, 32, 45, 32, 83, 104, 111, 119, 32, 116,
   104, 105, 115, 32, 104, 101, 108, 112, 32, 109, 101, 115, 115, 97, 103,
   101]

/-- The literal `"clear   - Clear the screen"`, the second description of `cmd_help`. -/
def str_help_clear : List Nat :=
  [99, 108, 101, 97, 114, 32, 32, 32, 45, 32, 67, 108, 101, 97, 114, 32,
   116, 104, 101, 32, 115, 99, 114, 101, 101, 110]

/-- The literal `"echo    - Echo text back"`, the third description of `cmd_help`. -/
def str_help_echo : List Nat :=
  [101, 99, 104, 111, 32, 32, 32, 32, 45, 32, 69, 99, 104, 111, 32, 116,
   101, 120, 116, 32, 98, 97, 99, 107]

/-- The literal `"uptime  - Show system uptime"`, the fourth description of `cmd_help`. -/
def str_help_uptime : List Nat :=
  [117, 112, 116, 105, 109, 101, 32, 32, 45, 32, 83, 104, 111, 119, 32,
   115, 121, 115, 116, 101, 109, 32, 117, 112, 116, 105, 109, 101]

/-- The literal `"version - Show OS version"`, the fifth description of `cmd_help`. -/
def str_help_version : List Nat :=
  [118, 101, 114, 115, 105, 111, 110, 32, 45, 32, 83, 104, 111, 119, 32,
   79, 83, 32, 118, 101, 114, 115, 105, 111, 110]

/-- The literal `"reboot  - Restart the system"`, the sixth description of `cmd_help`. -/
def str_help_reboot : List Nat :=
  [114, 101, 98, 111, 111, 116, 32, 32, 45, 32, 82, 101, 115, 116, 97, 114,
   116, 32, 116, 104, 101, 32, 115, 121, 115, 116, 101, 109]

/-- The literal `"System has been running since boot"`, the message of `cmd_uptime`. -/
def str_uptime : List Nat :=
  [83, 121, 115, 116, 101, 109, 32, 104, 97, 115, 32, 98, 101, 101, 110,
   32, 114, 117, 110, 110, 105, 110, 103, 32, 115, 105, 110, 99, 101, 32,
   98, 111, 111, 116]

/-- The literal `"NixOS v1.0"`, the first message of `cmd_version`. -/
def str_version : List Nat :=
  [78, 105, 120, 79, 83, 32, 118, 49, 46, 48]

/-- The literal `"Where it all begins!"`, the second message of `cmd_version`. -/
def str_motto : List Nat :=
  [87, 104, 101, 114, 101, 32, 105, 116, 32, 97, 108, 108, 32, 98, 101,
   103, 105, 110, 115, 33]

/-- The literal `"Rebooting system..."`, the message of `cmd_reboot`. -/
def str_rebooting : List Nat :=
  [82, 101, 98, 111, 111, 116, 105, 110, 103, 32, 115, 121, 115, 116, 101,
   109, 46, 46, 46]

/-- The literal `"help"`, the command name compared first. -/
def name_help : List Nat :=
  [104, 101, 108, 112]

/-- The literal `"clear"`, the command name compared second. -/
def name_clear : List Nat :=
  [99, 108, 101, 97, 114]

/-- The literal `"echo"`, the command name compared third. -/
def name_echo : List Nat :=
  [101, 99, 104, 111]

/-- The literal `"uptime"`, the command name compared fourth. -/
def name_uptime : List Nat :=
  [117, 112, 116, 105, 109, 101]

/-- The literal `"version"`, the command name compared fifth. -/
def name_version : List Nat :=
  [118, 101, 114, 115, 105, 111, 110]

/-- The literal `"reboot"`, the command name compared sixth. -/
def name_reboot : List Nat :=
  [114, 101, 98, 111, 111, 116]

/-- The literal `"Unknown command: "`, the start of the unknown-command message. -/
def str_unknown : List Nat :=
  [85, 110, 107, 110, 111, 119, 110, 32, 99, 111, 109, 109, 97, 110, 100,
   58, 32]

/-- The literal `"\nType 'help' for available commands.\n"`, the end of the unknown-command message, between two newlines. -/
def str_hint : List Nat :=
  [10, 84, 121, 112, 101, 32, 39, 104, 101, 108, 112, 39, 32, 102, 111,
   114, 32, 97, 118, 97, 105, 108, 97, 98, 108, 101, 32, 99, 111, 109, 109,
   97, 110, 100, 115, 46, 10]

/-- The literal `"NixOS Shell v1.0"`, the first welcome line of `shell`. -/
def str_shell_title : List Nat :=
  [78, 105, 120, 79, 83, 32, 83, 104, 101, 108, 108, 32, 118, 49, 46, 48]

/-- The literal `"Type 'help' for available commands."`, the second welcome line of `shell`. -/
def str_shell_hint : List Nat :=
  [84, 121, 112, 101, 32, 39, 104, 101, 108, 112, 39, 32, 102, 111, 114,
   32, 97, 118, 97, 105, 108, 97, 98, 108, 101, 32, 99, 111, 109, 109, 97,
   110, 100, 115, 46]

/-- The literal `"$ "`, the prompt marker of `shell`. -/
def str_dollar : List Nat :=
  [36, 32]

/-- The literal `"NixOS Kernel Starting..."`, the first startup line of `kernel_main`. -/
def str_kernel_starting : List Nat :=
  [78, 105, 120, 79, 83, 32, 75, 101, 114, 110, 101, 108, 32, 83, 116, 97,
   114, 116, 105, 110, 103, 46, 46, 46]

/-- The literal `"Welcome to NixOS!"`, the second startup line of `kernel_main`. -/
def str_welcome : List Nat :=
  [87, 101, 108, 99, 111, 109, 101, 32, 116, 111, 32, 78, 105, 120, 79, 83,
   33]

/-- The literal `"=================="`, the third startup line of `kernel_main`. -/
def str_rule : List Nat :=
  [61, 61, 61, 61, 61, 61, 61, 61, 61, 61, 61, 61, 61, 61, 61, 61, 61, 61]

/-! ## Shell commands -/

/-- The function `cmd_help`. -/
def cmd_help (sz : Nat) (t : Terminal) : Terminal :=
  let t := set_fullscreen_green t
  let t := print_centered sz t str_help_header 8
  let t := { t with terminal_row := 10, terminal_column := 20 }
  let t := terminal_print sz t str_help_help
  let t := { t with terminal_row := 11, terminal_column := 20 }
  let t := terminal_print sz t str_help_clear
  let t := { t with terminal_row := 12, terminal_column := 20 }
  let t := terminal_print sz t str_help_echo
  let t := { t with terminal_row := 13, terminal_column := 20 }
  let t := terminal_print sz t str_help_uptime
  let t := { t with terminal_row := 14, terminal_column := 20 }
  let t := terminal_print sz t str_help_version
  let t := { t with terminal_row := 15, terminal_column := 20 }
  let t := terminal_print sz t str_help_reboot
  { t with terminal_row := 20, terminal_column := 0 }

/-- The function `cmd_clear`. -/
def cmd_clear (t : Terminal) : Terminal :=
  let t := set_fullscreen_green t
  { t with terminal_row := 0, terminal_column := 0 }

/-- The function `cmd_uptime`. -/
def cmd_uptime (sz : Nat) (t : Terminal) : Terminal :=
  let t := set_fullscreen_green t
  let t := print_centered sz t str_uptime 12
  { t with terminal_row := 20, terminal_column := 0 }

/-- The function `cmd_version`. -/
def cmd_version (sz : Nat) (t : Terminal) : Terminal :=
  let t := set_fullscreen_green t
  let t := print_centered sz t str_version 12
  let t := print_centered sz t str_motto 13
  { t with terminal_row := 20, terminal_column := 0 }

/-- The function `cmd_reboot` up to the interrupt that resets the machine: the
result is the display state at that moment; the function does not return. -/
def cmd_reboot (sz : Nat) (t : Terminal) : Terminal :=
  let t := set_fullscreen_green t
  let t := print_centered sz t str_rebooting 12
  { t with terminal_row := 20, terminal_column := 0 }

/-! ## Command processing -/

/-- The function `strcmp`; reading past the end of a list reads the
terminating zero. -/
def strcmp : List Nat → List Nat → Int
  | a :: as, b :: bs => if a ≠ 0 ∧ a = b then strcmp as bs else (a : Int) - (b : Int)
  | a :: _, [] => (a : Int) - 0
  | [], b :: _ => 0 - (b : Int)
  | [], [] => 0

/-- The handlers `process_command` can call. -/
inductive Handler where
  | help
  | clear
  | echo
  | uptime
  | version
  | reboot
  deriving DecidableEq

/-- The first loop of `process_command`, entered with the input from `cmd[i]`
on: the bytes copied to `command` and the input left from the stop position
on. -/
def command_loop : List Nat → Nat → List Nat × List Nat
  | [], _ => ([], [])
  | c :: rest, i =>
    if c ≠ 32 ∧ i < 63 then
      ((c :: (command_loop rest (i + 1)).1), (command_loop rest (i + 1)).2)
    else ([], c :: rest)

/-- The second loop of `process_command`, entered with the input from `cmd[i]`
on and the count `j`: the bytes copied to `args`. -/
def args_loop : List Nat → Nat → List Nat
  | [], _ => []
  | c :: rest, j => if j < 191 then c :: args_loop rest (j + 1) else []

/-- The statement `if (cmd[i] == ' ') { ... }` of `process_command`, entered
with the input from `cmd[i]` on: the string left in `args`. -/
def args_of (rest : List Nat) : List Nat :=
  match rest with
  | c :: rest => if c = 32 then args_loop rest 0 else []
  | [] => []

/-- The parsing part of `process_command`: the strings left in `command` and
in `args`. -/
def parse_command (cmd : List Nat) : List Nat × List Nat :=
  let r := command_loop cmd 0
  (r.1, args_of r.2)

/-- From the spec's words: the command name is the text before the first
space, truncated to its first 63 characters. -/
def spec_command_name (cmd : List Nat) : List Nat :=
  (cmd.takeWhile (fun c => c ≠ 32)).take 63

/-- From the spec's words: the argument string is the text after the first
space, empty if there is no space, truncated to its first 191 characters. -/
def spec_arguments (cmd : List Nat) : List Nat :=
  ((cmd.dropWhile (fun c => c ≠ 32)).drop 1).take 191

/-- The six command names of `process_command`, in the order they are
compared. -/
def command_names : List (List Nat) :=
  [name_help, name_clear, name_echo, name_uptime, name_version, name_reboot]

/-- The function `process_command`: the display state it leaves and, as a
ghost result, the handler it called, if any. For `reboot` the state is the one
at the reset. -/
def process_command (sz : Nat) (t : Terminal) (cmd : List Nat) :
    Terminal × Option Handler :=
  if strlen cmd = 0 then (t, none)
  else
    let command := (parse_command cmd).1
    let args := (parse_command cmd).2
    if strcmp command name_help = 0 then (cmd_help sz t, some Handler.help)
    else if strcmp command name_clear = 0 then (cmd_clear t, some Handler.clear)
    else if strcmp command name_echo = 0 then (cmd_echo sz t args, some Handler.echo)
    else if strcmp command name_uptime = 0 then (cmd_uptime sz t, some Handler.uptime)
    else if strcmp command name_version = 0 then (cmd_version sz t, some Handler.version)
    else if strcmp command name_reboot = 0 then (cmd_reboot sz t, some Handler.reboot)
    else
      let t := terminal_print sz t str_unknown
      let t := terminal_print sz t command
      let t := terminal_print sz t str_hint
      (t, none)

/-! ## Shell loop -/

/-- The display state together with the statics `command_buffer`,
`command_index` and `key_pressed`; `halted` is set once `cmd_reboot` has reset
the machine. -/
structure Shell where
  term : Terminal
  command_buffer : Nat → Nat
  command_index : Nat
  key_pressed : Nat → Nat
  halted : Bool

/-- The C string that starts at `command_buffer[0]`: the bytes of the 256-byte
array before its first zero. -/
def c_string (buf : Nat → Nat) : List Nat :=
  ((List.range 256).map buf).takeWhile (fun b => b ≠ 0)

/-- The start of an iteration of the outer loop of `shell`: the cursor is moved
to the input row, the prompt marker is printed and the line is emptied. -/
def shell_prompt (sz : Nat) (s : Shell) : Shell :=
  let t := { s.term with terminal_row := 20, terminal_column := 0 }
  let t := terminal_print sz t str_dollar
  { s with term := t, command_index := 0 }

/-- The cursor movement of the backspace branch of `shell`. -/
def cursor_back (t : Terminal) : Terminal :=
  if t.terminal_column > 0 then
    { t with terminal_column := t.terminal_column - 1 }
  else if t.terminal_row > 0 then
    { t with terminal_row := t.terminal_row - 1, terminal_column := VGA_WIDTH - 1 }
  else t

/-- The body of the inner loop of `shell` for the decoded character `c`: the
state afterwards, and whether the loop was left by `break`. -/
def collect_step (sz : Nat) (s : Shell) (c : Nat) : Shell × Bool :=
  if c = 0 then (s, false)
  else if c = 10 then
    let t := terminal_putchar sz s.term 10
    let buf := write_cell s.command_buffer s.command_index 0
    let r := process_command sz t (c_string buf)
    ({ s with term := r.1, command_buffer := buf,
              halted := decide (r.2 = some Handler.reboot) }, true)
  else if c = 8 then
    if s.command_index > 0 then
      let t := cursor_back s.term
      let index := (t.terminal_row * VGA_WIDTH + t.terminal_column) % sz
      let cell := vga_entry ((VGA_COLOR_GREEN <<< 4) ||| VGA_COLOR_WHITE) 32
      let t := { t with terminal_buffer := write_cell t.terminal_buffer (cell_index sz index) cell }
      ({ s with term := t, command_index := s.command_index - 1 }, false)
    else (s, false)
  else if 32 ≤ c ∧ c ≤ 126 ∧ s.command_index < 255 then
    let buf := write_cell s.command_buffer s.command_index c
    let t := terminal_putchar sz s.term c
    ({ s with term := t, command_buffer := buf,
              command_index := s.command_index + 1 }, false)
  else (s, false)

/-- One decoded character through the loops of `shell`: the body of the inner
loop and, after a `break`, the start of the next iteration of the outer loop.
Nothing runs after the reset. -/
def shell_feed (sz : Nat) (s : Shell) (c : Nat) : Shell :=
  if s.halted then s
  else
    let r := collect_step sz s c
    if r.2 = true ∧ r.1.halted = false then shell_prompt sz r.1 else r.1

/-- The decoded characters of a list through the loops of `shell`, in order. -/
def shell_run (sz : Nat) (s : Shell) (cs : List Nat) : Shell :=
  cs.foldl (fun s c => shell_feed sz s c) s

/-- One poll of the keyboard: the byte `scancode` is decoded by
`get_keyboard_input` and the result goes through the loops of `shell`. -/
def shell_poll (sz : Nat) (s : Shell) (scancode : Nat) : Shell :=
  if s.halted then s
  else
    let r := get_keyboard_input s.key_pressed scancode
    shell_feed sz { s with key_pressed := r.2 } r.1

/-- The function `shell` up to its first prompt. -/
def shell_start (sz : Nat) (s : Shell) : Shell :=
  let t := set_fullscreen_green s.term
  let t := print_centered sz t str_shell_title 2
  let t := print_centered sz t str_shell_hint 4
  let t := print_centered sz t [] 6
  let t := { t with terminal_row := 20, terminal_column := 0 }
  shell_prompt sz { s with term := t }

/-- The function `kernel_main` up to the first prompt of `shell`, from the
initial values of the statics and the display memory `vga` found at boot. -/
def kernel_main (sz : Nat) (vga : Nat → Nat) : Shell :=
  let t := { boot_terminal with terminal_buffer := vga }
  let t := set_fullscreen_green t
  let t := print_centered sz t str_kernel_starting 10
  let t := print_centered sz t str_welcome 12
  let t := print_centered sz t str_rule 13
  shell_start sz { term := t, command_buffer := fun _ => 0, command_index := 0,
                   key_pressed := fun _ => 0, halted := false }

/-- The line typed so far: the first `command_index` bytes of
`command_buffer`. -/
def current_line (s : Shell) : List Nat :=
  (List.range s.command_index).map s.command_buffer

/-- A shell state with the line "ab" typed after the prompt, for the
instances. -/
def typing_shell : Shell :=
  { term := { boot_terminal with terminal_row := 20, terminal_column := 4 },
    command_buffer := fun i => if i = 0 then 97 else if i = 1 then 98 else 0,
    command_index := 2, key_pressed := fun _ => 0, halted := false }

/-- The invariant of the line buffer: at most 255 bytes, all printable. -/
def line_ok (s : Shell) : Prop :=
  s.command_index ≤ 255
  ∧ ∀ i, i < s.command_index → 32 ≤ s.command_buffer i ∧ s.command_buffer i ≤ 126

/-- The invariant of the Collect step while a line is edited, relative to the
state `base` right after the prompt: the cursor is inside the grid at the offset
1602 plus the length of the line, the line is within its bounds, nothing has
scrolled, the attribute is the one of `base`, every typed byte is on the
display at its offset, and a halted shell has an empty line. -/
def editing (base s : Shell) : Prop :=
  in_bounds s.term
  ∧ cursor_offset s.term = 1602 + s.command_index
  ∧ line_ok s
  ∧ s.term.scroll_calls = base.term.scroll_calls
  ∧ s.term.terminal_color = base.term.terminal_color
  ∧ s.halted = base.halted
  ∧ (s.halted = true → s.command_index = 0)
  ∧ ∀ k, k < s.command_index →
      s.term.terminal_buffer (1602 + k) = vga_entry s.term.terminal_color (s.command_buffer k)

/-- The statements `terminal_row = r; terminal_column = c; terminal_print(data);`
that `cmd_help` repeats. -/
def print_at (sz : Nat) (t : Terminal) (r c : Nat) (data : List Nat) : Terminal :=
  terminal_print sz { t with terminal_row := r, terminal_column := c } data

/-- The six descriptions `cmd_help` prints, in the order it prints them. -/
def help_descriptions : List (List Nat) :=
  [str_help_help, str_help_clear, str_help_echo, str_help_uptime, str_help_version,
   str_help_reboot]

/-- Every cell of the grid carries the attribute 0x07 or the attribute 0x2F. -/
def grid_attrs_ok (buf : Nat → Nat) : Prop :=
  ∀ i, i < 2000 → cell_attr (buf i) = 0x07 ∨ cell_attr (buf i) = 0x2F

/-- The attribute is 7 and every cell of the grid carries 0x07 or 0x2F. -/
def attr_inv (t : Terminal) : Prop :=
  t.terminal_color = 7 ∧ grid_attrs_ok t.terminal_buffer

/-- The invariant of the running shell for the attributes: `attr_inv` of the
display, and every byte of `command_buffer` is below 128. -/
def shell_attr_inv (s : Shell) : Prop :=
  attr_inv s.term ∧ ∀ j, s.command_buffer j < 128

/-! ## The loops over the grid -/

theorem fill_loop_apply (value y : Nat) (buf : Nat → Nat) (n i : Nat) :
    (List.range n).foldl (fun b x => write_cell b (y * VGA_WIDTH + x) value) buf i
      = if y * VGA_WIDTH ≤ i ∧ i < y * VGA_WIDTH + n then value else buf i := by
  induction n with
  | zero =>
    have : ¬ (y * VGA_WIDTH ≤ i ∧ i < y * VGA_WIDTH + 0) := by omega
    rw [if_neg this]
    rfl
  | succ n ih =>
    rw [List.range_succ, List.foldl_append]
    simp only [List.foldl_cons, List.foldl_nil, write_cell]
    rw [ih]
    by_cases h1 : i = y * VGA_WIDTH + n
    · have : y * VGA_WIDTH ≤ i ∧ i < y * VGA_WIDTH + (n + 1) := by omega
      simp [h1]
    · by_cases h2 : y * VGA_WIDTH ≤ i ∧ i < y * VGA_WIDTH + n
      · have : y * VGA_WIDTH ≤ i ∧ i < y * VGA_WIDTH + (n + 1) := by omega
        simp [h1, h2, this]
      · have : ¬ (y * VGA_WIDTH ≤ i ∧ i < y * VGA_WIDTH + (n + 1)) := by omega
        simp [h1, h2, this]

theorem fill_row_apply (value y : Nat) (buf : Nat → Nat) (i : Nat) :
    fill_row value y buf i
      = if y * 80 ≤ i ∧ i < y * 80 + 80 then value else buf i := by
  unfold fill_row
  rw [fill_loop_apply]
  simp only [VGA_WIDTH]

theorem fill_rows_apply (value : Nat) (buf : Nat → Nat) (m i : Nat) :
    (List.range m).foldl (fun b y => fill_row value y b) buf i
      = if i < m * 80 then value else buf i := by
  induction m with
  | zero => simp
  | succ m ih =>
    rw [List.range_succ, List.foldl_append]
    simp only [List.foldl_cons, List.foldl_nil]
    rw [fill_row_apply, ih]
    by_cases h1 : i < m * 80
    · have : i < (m + 1) * 80 := by omega
      simp [h1, this]
    · by_cases h2 : i < (m + 1) * 80
      · have : m * 80 ≤ i ∧ i < m * 80 + 80 := by omega
        simp [h2, this]
      · have : ¬ (m * 80 ≤ i ∧ i < m * 80 + 80) := by omega
        simp [h1, h2, this]

theorem copy_loop_apply (y : Nat) (buf : Nat → Nat) (n i : Nat) (hn : n ≤ 80) :
    (List.range n).foldl
        (fun b x => write_cell b (y * VGA_WIDTH + x) (b ((y + 1) * VGA_WIDTH + x))) buf i
      = if y * 80 ≤ i ∧ i < y * 80 + n then buf (i + 80) else buf i := by
  induction n generalizing i with
  | zero =>
    have : ¬ (y * 80 ≤ i ∧ i < y * 80 + 0) := by omega
    rw [if_neg this]
    rfl
  | succ n ih =>
    rw [List.range_succ, List.foldl_append]
    simp only [List.foldl_cons, List.foldl_nil, write_cell]
    rw [ih i (by omega), ih ((y + 1) * VGA_WIDTH + n) (by omega)]
    simp only [VGA_WIDTH]
    have hsrc : ¬ (y * 80 ≤ (y + 1) * 80 + n ∧ (y + 1) * 80 + n < y * 80 + n) := by omega
    rw [if_neg hsrc]
    by_cases h1 : i = y * 80 + n
    · have : y * 80 ≤ i ∧ i < y * 80 + (n + 1) := by omega
      rw [if_pos h1, if_pos this]
      congr 1
      omega
    · rw [if_neg h1]
      by_cases h2 : y * 80 ≤ i ∧ i < y * 80 + n
      · have : y * 80 ≤ i ∧ i < y * 80 + (n + 1) := by omega
        rw [if_pos h2, if_pos this]
      · have : ¬ (y * 80 ≤ i ∧ i < y * 80 + (n + 1)) := by omega
        rw [if_neg h2, if_neg this]

theorem copy_row_up_apply (y : Nat) (buf : Nat → Nat) (i : Nat) :
    copy_row_up y buf i
      = if y * 80 ≤ i ∧ i < y * 80 + 80 then buf (i + 80) else buf i := by
  unfold copy_row_up
  exact copy_loop_apply y buf 80 i (Nat.le_refl 80)

theorem copy_rows_apply (buf : Nat → Nat) (m i : Nat) :
    (List.range m).foldl (fun b y => copy_row_up y b) buf i
      = if i < m * 80 then buf (i + 80) else buf i := by
  induction m generalizing i with
  | zero => simp
  | succ m ih =>
    rw [List.range_succ, List.foldl_append]
    simp only [List.foldl_cons, List.foldl_nil]
    rw [copy_row_up_apply, ih i, ih (i + 80)]
    by_cases h1 : i < m * 80
    · have h2 : i < (m + 1) * 80 := by omega
      have h3 : ¬ (m * 80 ≤ i ∧ i < m * 80 + 80) := by omega
      rw [if_neg h3, if_pos h1, if_pos h2]
    · by_cases h2 : i < (m + 1) * 80
      · have h3 : m * 80 ≤ i ∧ i < m * 80 + 80 := by omega
        have h4 : ¬ (i + 80 < m * 80) := by omega
        rw [if_pos h3, if_neg h4, if_pos h2]
      · have h3 : ¬ (m * 80 ≤ i ∧ i < m * 80 + 80) := by omega
        rw [if_neg h3, if_neg h1, if_neg h2]

/-- The buffer after `terminal_clear`, cell by cell. -/
theorem terminal_clear_buffer (t : Terminal) (i : Nat) :
    (terminal_clear t).terminal_buffer i
      = if i < 2000 then vga_entry t.terminal_color 32 else t.terminal_buffer i := by
  unfold terminal_clear
  simp only [VGA_HEIGHT]
  rw [fill_rows_apply]

/-- The buffer after `terminal_scroll`, cell by cell. -/
theorem terminal_scroll_buffer (t : Terminal) (i : Nat) :
    (terminal_scroll t).terminal_buffer i
      = if i < 1920 then t.terminal_buffer (i + 80)
        else if i < 2000 then vga_entry t.terminal_color 32
        else t.terminal_buffer i := by
  unfold terminal_scroll
  simp only [VGA_HEIGHT]
  rw [fill_row_apply, copy_rows_apply]
  by_cases h1 : i < 1920
  · have : ¬ (24 * 80 ≤ i ∧ i < 24 * 80 + 80) := by omega
    simp [h1, this]
  · by_cases h2 : i < 2000
    · have : 24 * 80 ≤ i ∧ i < 24 * 80 + 80 := by omega
      simp [h1, h2, this]
    · have : ¬ (24 * 80 ≤ i ∧ i < 24 * 80 + 80) := by omega
      simp [h1, h2, this]

/-- The buffer after `set_fullscreen_green`, cell by cell. -/
theorem set_fullscreen_green_buffer (t : Terminal) (i : Nat) :
    (set_fullscreen_green t).terminal_buffer i
      = if i < 2000 then vga_entry 0x2F 32 else t.terminal_buffer i := by
  unfold set_fullscreen_green
  simp only [VGA_HEIGHT]
  rw [fill_rows_apply]
  rfl


/-! ## Cells -/

theorem vga_entry_of_lt (color c : Nat) (hcolor : color < 256) (hc : c < 128) :
    vga_entry color c = color * 256 + c := by
  unfold vga_entry char_promote16
  rw [if_pos hc, Nat.shiftLeft_eq]
  have h : 2 ^ 8 * color + c = 2 ^ 8 * color ||| c :=
    Nat.mul_add_lt_is_or (by omega) color
  rw [Nat.mul_comm, ← h]
  omega

theorem vga_entry_eq_or (color c : Nat) (hcolor : color < 256) (hc : c < 128) :
    vga_entry color c = (color <<< 8) ||| c := by
  rw [vga_entry_of_lt color c hcolor hc, Nat.shiftLeft_eq, Nat.mul_comm]
  exact Nat.mul_add_lt_is_or (show c < 2 ^ 8 by omega) color

theorem or_shift_mod (a x : Nat) : (a <<< 8 ||| x) % 2 ^ 8 = x % 2 ^ 8 := by
  apply Nat.eq_of_testBit_eq
  intro i
  simp only [Nat.testBit_mod_two_pow, Nat.testBit_or, Nat.testBit_shiftLeft]
  by_cases h : i < 8
  · have : ¬ (i ≥ 8) := by omega
    simp [h, this]
  · simp [h]

/-- The low byte of a cell written for the byte `c` is `c`, whatever the
attribute. -/
theorem cell_char_vga_entry (color c : Nat) (hc : c < 256) :
    cell_char (vga_entry color c) = c := by
  unfold cell_char vga_entry
  have h1 : ∀ v : Nat, v % 65536 % 256 = v % 256 := by intro v; omega
  rw [h1]
  have h2 := or_shift_mod color (char_promote16 c)
  norm_num at h2
  rw [h2]
  unfold char_promote16
  split <;> omega

/-- The high byte of a cell written for a byte below 128 is the attribute. -/
theorem cell_attr_vga_entry (color c : Nat) (hcolor : color < 256) (hc : c < 128) :
    cell_attr (vga_entry color c) = color := by
  rw [vga_entry_of_lt color c hcolor hc]
  unfold cell_attr
  omega

/-! ## Frame facts of the cursor update -/

@[simp] theorem update_cursor_row (sz : Nat) (t : Terminal) :
    (update_cursor sz t).terminal_row = t.terminal_row := rfl

@[simp] theorem update_cursor_column (sz : Nat) (t : Terminal) :
    (update_cursor sz t).terminal_column = t.terminal_column := rfl

@[simp] theorem update_cursor_color (sz : Nat) (t : Terminal) :
    (update_cursor sz t).terminal_color = t.terminal_color := rfl

@[simp] theorem update_cursor_buffer (sz : Nat) (t : Terminal) :
    (update_cursor sz t).terminal_buffer = t.terminal_buffer := rfl

@[simp] theorem update_cursor_scroll_calls (sz : Nat) (t : Terminal) :
    (update_cursor sz t).scroll_calls = t.scroll_calls := rfl

@[simp] theorem terminal_scroll_row (t : Terminal) :
    (terminal_scroll t).terminal_row = 24 := rfl

@[simp] theorem terminal_scroll_column (t : Terminal) :
    (terminal_scroll t).terminal_column = t.terminal_column := rfl

@[simp] theorem terminal_scroll_color (t : Terminal) :
    (terminal_scroll t).terminal_color = t.terminal_color := rfl

@[simp] theorem terminal_scroll_calls (t : Terminal) :
    (terminal_scroll t).scroll_calls = t.scroll_calls + 1 := rfl

/-! ## One call of `terminal_putchar` -/

/-- The state a non-newline `terminal_putchar` leaves, before the hardware
cursor is updated, for a cursor inside the grid. -/
theorem terminal_putchar_char_eq (sz : Nat) (t : Terminal) (c : Nat)
    (hsz : 65536 ≤ sz) (hb : in_bounds t) (hc : c ≠ 10) :
    terminal_putchar sz t c = update_cursor sz
      (if t.terminal_column + 1 = 80 then
        (if t.terminal_row + 1 = 25 then
          terminal_scroll { t with
            terminal_buffer := write_cell t.terminal_buffer (cursor_offset t)
              (vga_entry t.terminal_color c),
            terminal_column := 0, terminal_row := 25 }
        else { t with
            terminal_buffer := write_cell t.terminal_buffer (cursor_offset t)
              (vga_entry t.terminal_color c),
            terminal_column := 0, terminal_row := t.terminal_row + 1 })
      else { t with
            terminal_buffer := write_cell t.terminal_buffer (cursor_offset t)
              (vga_entry t.terminal_color c),
            terminal_column := t.terminal_column + 1 }) := by
  obtain ⟨hr, hcol⟩ := hb
  simp only [VGA_HEIGHT, VGA_WIDTH] at hr hcol
  have h1 : (t.terminal_row * 80 + t.terminal_column) % sz
      = t.terminal_row * 80 + t.terminal_column := Nat.mod_eq_of_lt (by omega)
  have h1c : cell_index sz (t.terminal_row * 80 + t.terminal_column)
      = t.terminal_row * 80 + t.terminal_column := Nat.mod_eq_of_lt (by omega)
  have h2 : (t.terminal_column + 1) % sz = t.terminal_column + 1 :=
    Nat.mod_eq_of_lt (by omega)
  have h3 : (t.terminal_row + 1) % sz = t.terminal_row + 1 :=
    Nat.mod_eq_of_lt (by omega)
  simp only [terminal_putchar, next_row, if_neg hc, VGA_WIDTH, VGA_HEIGHT, h1, h1c, h2, h3,
    cursor_offset]
  by_cases h4 : t.terminal_column + 1 = 80
  · by_cases h5 : t.terminal_row + 1 = 25
    · simp only [if_pos h4, if_pos h5]
      rfl
    · simp only [if_pos h4, if_neg h5]
  · simp only [if_neg h4]

/-- The state a newline `terminal_putchar` leaves, before the hardware cursor
is updated, for a cursor inside the grid. -/
theorem terminal_putchar_newline_eq (sz : Nat) (t : Terminal)
    (hsz : 65536 ≤ sz) (hb : in_bounds t) :
    terminal_putchar sz t 10 = update_cursor sz
      (if t.terminal_row + 1 = 25 then
        terminal_scroll { t with terminal_column := 0, terminal_row := 25 }
      else { t with terminal_column := 0, terminal_row := t.terminal_row + 1 }) := by
  obtain ⟨hr, hcol⟩ := hb
  simp only [VGA_HEIGHT, VGA_WIDTH] at hr hcol
  have h3 : (t.terminal_row + 1) % sz = t.terminal_row + 1 :=
    Nat.mod_eq_of_lt (by omega)
  simp only [terminal_putchar, next_row, VGA_HEIGHT, h3, if_true]
  by_cases h5 : t.terminal_row + 1 = 25
  · simp only [if_pos h5]
    rfl
  · simp only [if_neg h5]


/-- A non-newline `terminal_putchar` away from the last cell: the cell under
the cursor is written, the cursor advances by one cell, nothing scrolls. -/
theorem terminal_putchar_step (sz : Nat) (t : Terminal) (c : Nat)
    (hsz : 65536 ≤ sz) (hb : in_bounds t) (hc : c ≠ 10)
    (hfit : cursor_offset t + 1 < 2000) :
    in_bounds (terminal_putchar sz t c)
    ∧ cursor_offset (terminal_putchar sz t c) = cursor_offset t + 1
    ∧ (terminal_putchar sz t c).terminal_color = t.terminal_color
    ∧ (terminal_putchar sz t c).scroll_calls = t.scroll_calls
    ∧ (terminal_putchar sz t c).terminal_buffer
        = write_cell t.terminal_buffer (cursor_offset t) (vga_entry t.terminal_color c) := by
  rw [terminal_putchar_char_eq sz t c hsz hb hc]
  obtain ⟨hr, hcol⟩ := hb
  simp only [in_bounds, cursor_offset, VGA_HEIGHT, VGA_WIDTH] at hr hcol hfit ⊢
  by_cases h4 : t.terminal_column + 1 = 80
  · have h5 : ¬ (t.terminal_row + 1 = 25) := by omega
    simp only [if_pos h4, if_neg h5, update_cursor_row, update_cursor_column,
      update_cursor_color, update_cursor_buffer, update_cursor_scroll_calls]
    refine ⟨⟨by omega, by omega⟩, by omega, ?_, ?_, ?_⟩ <;> trivial
  · simp only [if_neg h4, update_cursor_row, update_cursor_column,
      update_cursor_color, update_cursor_buffer, update_cursor_scroll_calls]
    refine ⟨⟨by omega, by omega⟩, by omega, ?_, ?_, ?_⟩ <;> trivial

/-- A non-newline `terminal_putchar` on the last cell (24, 79): the cell is
written, then the grid scrolls once and the cursor is (24, 0). -/
theorem terminal_putchar_last (sz : Nat) (t : Terminal) (c : Nat)
    (hsz : 65536 ≤ sz) (hb : in_bounds t) (hc : c ≠ 10)
    (hlast : cursor_offset t = 1999) :
    (terminal_putchar sz t c).terminal_row = 24
    ∧ (terminal_putchar sz t c).terminal_column = 0
    ∧ (terminal_putchar sz t c).terminal_color = t.terminal_color
    ∧ (terminal_putchar sz t c).scroll_calls = t.scroll_calls + 1
    ∧ (terminal_putchar sz t c).terminal_buffer
        = (terminal_scroll
            { t with terminal_buffer := write_cell t.terminal_buffer 1999 (vga_entry t.terminal_color c) }
          ).terminal_buffer := by
  rw [terminal_putchar_char_eq sz t c hsz hb hc]
  obtain ⟨hr, hcol⟩ := hb
  simp only [in_bounds, cursor_offset, VGA_HEIGHT, VGA_WIDTH] at hr hcol hlast ⊢
  have h4 : t.terminal_column + 1 = 80 := by omega
  have h5 : t.terminal_row + 1 = 25 := by omega
  simp only [if_pos h4, if_pos h5, update_cursor_row, update_cursor_column,
    update_cursor_color, update_cursor_buffer, update_cursor_scroll_calls, hlast]
  refine ⟨?_, ?_, ?_, ?_, ?_⟩ <;> trivial

/-- The attribute is the same after `terminal_putchar`, for every state and
every byte. -/
theorem terminal_putchar_color (sz : Nat) (t : Terminal) (c : Nat) :
    (terminal_putchar sz t c).terminal_color = t.terminal_color := by
  unfold terminal_putchar next_row
  simp only [update_cursor_color]
  split
  · split <;> rfl
  · split
    · split <;> rfl
    · rfl

/-- The attribute is the same after `terminal_print`. -/
theorem terminal_print_color (sz : Nat) (data : List Nat) (t : Terminal) :
    (terminal_print sz t data).terminal_color = t.terminal_color := by
  induction data generalizing t with
  | nil => rfl
  | cons c cs ih =>
    show (terminal_print sz (terminal_putchar sz t c) cs).terminal_color = _
    rw [ih, terminal_putchar_color]

theorem terminal_print_cons (sz : Nat) (t : Terminal) (c : Nat) (cs : List Nat) :
    terminal_print sz t (c :: cs) = terminal_print sz (terminal_putchar sz t c) cs := rfl

theorem terminal_print_append (sz : Nat) (t : Terminal) (xs ys : List Nat) :
    terminal_print sz t (xs ++ ys) = terminal_print sz (terminal_print sz t xs) ys := by
  unfold terminal_print
  rw [List.foldl_append]

/-- Printing newline-free text that ends before the last cell: the cells from
the cursor on receive the bytes in order, the cursor advances by the length,
nothing scrolls. -/
theorem terminal_print_no_scroll (sz : Nat) (hsz : 65536 ≤ sz) (data : List Nat)
    (t : Terminal) (hb : in_bounds t) (hnl : ∀ c ∈ data, c ≠ 10)
    (hfit : cursor_offset t + data.length < 2000) :
    in_bounds (terminal_print sz t data)
    ∧ cursor_offset (terminal_print sz t data) = cursor_offset t + data.length
    ∧ (terminal_print sz t data).scroll_calls = t.scroll_calls
    ∧ ∀ i, (terminal_print sz t data).terminal_buffer i
        = if cursor_offset t ≤ i ∧ i < cursor_offset t + data.length then
            vga_entry t.terminal_color (data.getD (i - cursor_offset t) 0)
          else t.terminal_buffer i := by
  induction data generalizing t with
  | nil =>
    refine ⟨hb, rfl, rfl, ?_⟩
    intro i
    have : ¬ (cursor_offset t ≤ i ∧ i < cursor_offset t + ([] : List Nat).length) := by
      simp
    rw [if_neg this]
    rfl
  | cons c cs ih =>
    rw [terminal_print_cons]
    simp only [List.length_cons] at hfit ⊢
    obtain ⟨hb1, ho1, hcol1, hs1, hbuf1⟩ :=
      terminal_putchar_step sz t c hsz hb (hnl c (List.mem_cons_self c cs)) (by omega)
    obtain ⟨hb2, ho2, hs2, hbuf2⟩ := ih (terminal_putchar sz t c) hb1
      (fun x hx => hnl x (List.mem_cons_of_mem c hx)) (by omega)
    refine ⟨hb2, by omega, by omega, ?_⟩
    intro i
    rw [hbuf2 i, hbuf1, ho1, hcol1]
    by_cases h1 : i = cursor_offset t
    · have h2 : ¬ (cursor_offset t + 1 ≤ i ∧ i < cursor_offset t + 1 + cs.length) := by
        omega
      have h3 : cursor_offset t ≤ i ∧ i < cursor_offset t + (cs.length + 1) := by omega
      rw [if_neg h2, if_pos h3]
      simp [write_cell, h1]
    · by_cases h2 : cursor_offset t + 1 ≤ i ∧ i < cursor_offset t + 1 + cs.length
      · have h3 : cursor_offset t ≤ i ∧ i < cursor_offset t + (cs.length + 1) := by omega
        rw [if_pos h2, if_pos h3]
        have h4 : i - cursor_offset t = (i - (cursor_offset t + 1)) + 1 := by omega
        rw [h4]
        rfl
      · have h3 : ¬ (cursor_offset t ≤ i ∧ i < cursor_offset t + (cs.length + 1)) := by
          omega
        rw [if_neg h2, if_neg h3]
        simp [write_cell, h1]


/-! ## The cursor stays inside the grid -/

theorem terminal_putchar_in_bounds (sz : Nat) (hsz : 65536 ≤ sz) (t : Terminal)
    (hb : in_bounds t) (c : Nat) : in_bounds (terminal_putchar sz t c) := by
  by_cases hc : c = 10
  · subst hc
    rw [terminal_putchar_newline_eq sz t hsz hb]
    obtain ⟨hr, hcol⟩ := hb
    simp only [in_bounds, VGA_HEIGHT, VGA_WIDTH] at hr hcol ⊢
    by_cases h5 : t.terminal_row + 1 = 25
    · simp only [if_pos h5, update_cursor_row, update_cursor_column, terminal_scroll_row,
        terminal_scroll_column]
      omega
    · simp only [if_neg h5, update_cursor_row, update_cursor_column]
      omega
  · rw [terminal_putchar_char_eq sz t c hsz hb hc]
    obtain ⟨hr, hcol⟩ := hb
    simp only [in_bounds, VGA_HEIGHT, VGA_WIDTH] at hr hcol ⊢
    by_cases h4 : t.terminal_column + 1 = 80
    · by_cases h5 : t.terminal_row + 1 = 25
      · simp only [if_pos h4, if_pos h5, update_cursor_row, update_cursor_column,
          terminal_scroll_row, terminal_scroll_column]
        omega
      · simp only [if_pos h4, if_neg h5, update_cursor_row, update_cursor_column]
        omega
    · simp only [if_neg h4, update_cursor_row, update_cursor_column]
      omega

theorem terminal_print_in_bounds (sz : Nat) (hsz : 65536 ≤ sz) (data : List Nat)
    (t : Terminal) (hb : in_bounds t) : in_bounds (terminal_print sz t data) := by
  induction data generalizing t with
  | nil => exact hb
  | cons c cs ih =>
    rw [terminal_print_cons]
    exact ih _ (terminal_putchar_in_bounds sz hsz t hb c)

/-- C1. Cursor bounds invariant: from a state with row < 25 and column < 80,
the state after `terminal_putchar` of any character (newline included), after
`terminal_clear`, after `terminal_scroll` and after `terminal_print` of any
string again has row < 25 and column < 80. -/
theorem cursor_bounds_invariant (sz : Nat) (hsz : 65536 ≤ sz) (t : Terminal)
    (hrow : t.terminal_row < 25) (hcol : t.terminal_column < 80) :
    (∀ c : Nat, (terminal_putchar sz t c).terminal_row < 25
        ∧ (terminal_putchar sz t c).terminal_column < 80)
    ∧ ((terminal_clear t).terminal_row < 25 ∧ (terminal_clear t).terminal_column < 80)
    ∧ ((terminal_scroll t).terminal_row < 25 ∧ (terminal_scroll t).terminal_column < 80)
    ∧ (∀ data : List Nat, (terminal_print sz t data).terminal_row < 25
        ∧ (terminal_print sz t data).terminal_column < 80) := by
  have hb : in_bounds t := ⟨hrow, hcol⟩
  refine ⟨fun c => terminal_putchar_in_bounds sz hsz t hb c, ?_, ?_,
    fun data => terminal_print_in_bounds sz hsz data t hb⟩
  · exact ⟨show (0 : Nat) < 25 by norm_num, show (0 : Nat) < 80 by norm_num⟩
  · exact ⟨show (24 : Nat) < 25 by norm_num, hcol⟩

theorem cursor_bounds_invariant_witness :
    (∀ c : Nat, (terminal_putchar (2 ^ 32) boot_terminal c).terminal_row < 25
        ∧ (terminal_putchar (2 ^ 32) boot_terminal c).terminal_column < 80)
    ∧ ((terminal_clear boot_terminal).terminal_row < 25
        ∧ (terminal_clear boot_terminal).terminal_column < 80)
    ∧ ((terminal_scroll boot_terminal).terminal_row < 25
        ∧ (terminal_scroll boot_terminal).terminal_column < 80)
    ∧ (∀ data : List Nat, (terminal_print (2 ^ 32) boot_terminal data).terminal_row < 25
        ∧ (terminal_print (2 ^ 32) boot_terminal data).terminal_column < 80) :=
  cursor_bounds_invariant (2 ^ 32) (by norm_num) boot_terminal (by decide) (by decide)

/-! ## `terminal_clear` and `terminal_scroll` -/

/-- C2. After `terminal_clear` every one of the 80·25 cells holds the 16-bit
value `(terminal_color << 8) | ' '`, that is (space, current attribute), the
cursor is (0,0) and the attribute is the one before. -/
theorem terminal_clear_spec (t : Terminal) (hcolor : t.terminal_color < 256) :
    (∀ y x, y < 25 → x < 80 →
        (terminal_clear t).terminal_buffer (y * 80 + x) = (t.terminal_color <<< 8) ||| 32
        ∧ cell_char ((terminal_clear t).terminal_buffer (y * 80 + x)) = 32
        ∧ cell_attr ((terminal_clear t).terminal_buffer (y * 80 + x)) = t.terminal_color)
    ∧ (terminal_clear t).terminal_row = 0
    ∧ (terminal_clear t).terminal_column = 0
    ∧ (terminal_clear t).terminal_color = t.terminal_color := by
  refine ⟨?_, rfl, rfl, rfl⟩
  intro y x hy hx
  have hi : y * 80 + x < 2000 := by omega
  rw [terminal_clear_buffer, if_pos hi]
  refine ⟨?_, cell_char_vga_entry _ 32 (by norm_num),
    cell_attr_vga_entry _ 32 hcolor (by norm_num)⟩
  exact vga_entry_eq_or _ 32 hcolor (by norm_num)

theorem terminal_clear_spec_witness :
    (∀ y x, y < 25 → x < 80 →
        (terminal_clear boot_terminal).terminal_buffer (y * 80 + x)
          = (boot_terminal.terminal_color <<< 8) ||| 32
        ∧ cell_char ((terminal_clear boot_terminal).terminal_buffer (y * 80 + x)) = 32
        ∧ cell_attr ((terminal_clear boot_terminal).terminal_buffer (y * 80 + x))
          = boot_terminal.terminal_color)
    ∧ (terminal_clear boot_terminal).terminal_row = 0
    ∧ (terminal_clear boot_terminal).terminal_column = 0
    ∧ (terminal_clear boot_terminal).terminal_color = boot_terminal.terminal_color :=
  terminal_clear_spec boot_terminal (by decide)

/-- C3. After `terminal_scroll` each row y < 24 equals the former row y+1 cell
for cell, every cell of row 24 is (space, current attribute), the cursor row is
24, and the cursor column and the attribute are the ones before. -/
theorem terminal_scroll_spec (t : Terminal) (hcolor : t.terminal_color < 256) :
    (∀ y x, y < 24 → x < 80 →
        (terminal_scroll t).terminal_buffer (y * 80 + x)
          = t.terminal_buffer ((y + 1) * 80 + x))
    ∧ (∀ x, x < 80 →
        (terminal_scroll t).terminal_buffer (24 * 80 + x) = (t.terminal_color <<< 8) ||| 32
        ∧ cell_char ((terminal_scroll t).terminal_buffer (24 * 80 + x)) = 32
        ∧ cell_attr ((terminal_scroll t).terminal_buffer (24 * 80 + x)) = t.terminal_color)
    ∧ (terminal_scroll t).terminal_row = 24
    ∧ (terminal_scroll t).terminal_column = t.terminal_column
    ∧ (terminal_scroll t).terminal_color = t.terminal_color := by
  refine ⟨?_, ?_, rfl, rfl, rfl⟩
  · intro y x hy hx
    have hi : y * 80 + x < 1920 := by omega
    rw [terminal_scroll_buffer, if_pos hi]
    congr 1
    omega
  · intro x hx
    have h1 : ¬ (24 * 80 + x < 1920) := by omega
    have h2 : 24 * 80 + x < 2000 := by omega
    rw [terminal_scroll_buffer, if_neg h1, if_pos h2]
    refine ⟨?_, cell_char_vga_entry _ 32 (by norm_num),
      cell_attr_vga_entry _ 32 hcolor (by norm_num)⟩
    exact vga_entry_eq_or _ 32 hcolor (by norm_num)

theorem terminal_scroll_spec_witness :
    (∀ y x, y < 24 → x < 80 →
        (terminal_scroll boot_terminal).terminal_buffer (y * 80 + x)
          = boot_terminal.terminal_buffer ((y + 1) * 80 + x))
    ∧ (∀ x, x < 80 →
        (terminal_scroll boot_terminal).terminal_buffer (24 * 80 + x)
          = (boot_terminal.terminal_color <<< 8) ||| 32
        ∧ cell_char ((terminal_scroll boot_terminal).terminal_buffer (24 * 80 + x)) = 32
        ∧ cell_attr ((terminal_scroll boot_terminal).terminal_buffer (24 * 80 + x))
          = boot_terminal.terminal_color)
    ∧ (terminal_scroll boot_terminal).terminal_row = 24
    ∧ (terminal_scroll boot_terminal).terminal_column = boot_terminal.terminal_column
    ∧ (terminal_scroll boot_terminal).terminal_color = boot_terminal.terminal_color :=
  terminal_scroll_spec boot_terminal (by decide)


/-! ## `terminal_putchar` -/

set_option maxRecDepth 100000 in
theorem or_high_byte : ∀ color < 256, color <<< 8 ||| 2 ^ 8 * 255 = 2 ^ 8 * 255 := by
  decide

/-- The cell written for a byte of 128 or more has all attribute bits set: the
promoted `char` is negative and its sign bits overwrite the attribute. -/
theorem vga_entry_of_ge (color c : Nat) (hcolor : color < 256) (h1 : 128 ≤ c)
    (h2 : c < 256) : vga_entry color c = 0xFF00 + c := by
  unfold vga_entry char_promote16
  rw [if_neg (by omega)]
  have h : 2 ^ 8 * 255 + c = 2 ^ 8 * 255 ||| c :=
    Nat.mul_add_lt_is_or (show c < 2 ^ 8 by omega) 255
  have h3 : 0xFF00 + c = 2 ^ 8 * 255 ||| c := by rw [← h]; norm_num
  rw [h3, ← Nat.or_assoc, or_high_byte color hcolor, ← h]
  omega

/-- For a byte below 128 other than newline, a cursor inside the grid and not
on the last cell: `terminal_putchar` sets the cell under the cursor to
(character, current attribute), leaves every other cell as it was and moves the
cursor to the next cell in row-major order. -/
theorem terminal_putchar_ascii (sz : Nat) (hsz : 65536 ≤ sz) (t : Terminal) (c : Nat)
    (hrow : t.terminal_row < 25) (hcol : t.terminal_column < 80)
    (hlast : ¬ (t.terminal_row = 24 ∧ t.terminal_column = 79))
    (hcolor : t.terminal_color < 256) (hc : c < 128) (hnl : c ≠ 10) :
    cell_char ((terminal_putchar sz t c).terminal_buffer
        (t.terminal_row * 80 + t.terminal_column)) = c
    ∧ cell_attr ((terminal_putchar sz t c).terminal_buffer
        (t.terminal_row * 80 + t.terminal_column)) = t.terminal_color
    ∧ (∀ i, i ≠ t.terminal_row * 80 + t.terminal_column →
        (terminal_putchar sz t c).terminal_buffer i = t.terminal_buffer i)
    ∧ (t.terminal_column < 79 →
        (terminal_putchar sz t c).terminal_row = t.terminal_row
        ∧ (terminal_putchar sz t c).terminal_column = t.terminal_column + 1)
    ∧ (t.terminal_column = 79 →
        (terminal_putchar sz t c).terminal_row = t.terminal_row + 1
        ∧ (terminal_putchar sz t c).terminal_column = 0) := by
  have hb : in_bounds t := ⟨hrow, hcol⟩
  have hfit : cursor_offset t + 1 < 2000 := by
    simp only [cursor_offset, VGA_WIDTH]
    omega
  obtain ⟨⟨hr1, hc1⟩, ho, -, -, hbuf⟩ := terminal_putchar_step sz t c hsz hb hnl hfit
  simp only [cursor_offset, VGA_WIDTH, VGA_HEIGHT] at ho hbuf hr1 hc1
  rw [hbuf]
  refine ⟨?_, ?_, ?_, ?_, ?_⟩
  · simp only [write_cell, if_true]
    exact cell_char_vga_entry _ c (by omega)
  · simp only [write_cell, if_true]
    exact cell_attr_vga_entry _ c hcolor hc
  · intro i hi
    simp only [write_cell, if_neg hi]
  · intro h
    constructor <;> omega
  · intro h
    constructor <;> omega

set_option maxRecDepth 100000 in
/-- C4, evaluated at the byte 0x80: with the attribute 7 and the cursor at
(0,0), `terminal_putchar` stores the cell 0xFF80, whose character byte is 0x80
and whose attribute byte is 0xFF and not the current attribute 7; the same for
a 32-bit and a 64-bit `size_t`. -/
theorem terminal_putchar_byte_0x80 :
    boot_terminal.terminal_row = 0 ∧ boot_terminal.terminal_column = 0
    ∧ boot_terminal.terminal_color = 7
    ∧ (terminal_putchar (2 ^ 32) boot_terminal 0x80).terminal_buffer 0 = 0xFF80
    ∧ (terminal_putchar (2 ^ 64) boot_terminal 0x80).terminal_buffer 0 = 0xFF80
    ∧ cell_char ((terminal_putchar (2 ^ 32) boot_terminal 0x80).terminal_buffer 0) = 0x80
    ∧ cell_attr ((terminal_putchar (2 ^ 32) boot_terminal 0x80).terminal_buffer 0) = 0xFF
    ∧ cell_attr ((terminal_putchar (2 ^ 32) boot_terminal 0x80).terminal_buffer 0)
        ≠ boot_terminal.terminal_color := by
  decide

/-- C5. For a cursor inside the grid, `terminal_putchar` of a newline writes no
cell of its own: when row < 24 the buffer is the one before and the cursor
becomes (row+1, 0); when row = 24 the buffer is the one `terminal_scroll`
produces from the old state and the cursor becomes (24, 0). -/
theorem terminal_putchar_newline_spec (sz : Nat) (hsz : 65536 ≤ sz) (t : Terminal)
    (hrow : t.terminal_row < 25) (hcol : t.terminal_column < 80) :
    (t.terminal_row < 24 →
        (terminal_putchar sz t 10).terminal_buffer = t.terminal_buffer
        ∧ (terminal_putchar sz t 10).terminal_row = t.terminal_row + 1
        ∧ (terminal_putchar sz t 10).terminal_column = 0)
    ∧ (t.terminal_row = 24 →
        (terminal_putchar sz t 10).terminal_buffer = (terminal_scroll t).terminal_buffer
        ∧ (terminal_putchar sz t 10).terminal_row = 24
        ∧ (terminal_putchar sz t 10).terminal_column = 0) := by
  rw [terminal_putchar_newline_eq sz t hsz ⟨hrow, hcol⟩]
  constructor
  · intro h
    have h5 : ¬ (t.terminal_row + 1 = 25) := by omega
    simp only [if_neg h5, update_cursor_row, update_cursor_column, update_cursor_buffer]
    trivial
  · intro h
    have h5 : t.terminal_row + 1 = 25 := by omega
    simp only [if_pos h5, update_cursor_row, update_cursor_column, update_cursor_buffer,
      terminal_scroll_row, terminal_scroll_column]
    refine ⟨?_, trivial, trivial⟩
    rfl

theorem terminal_putchar_newline_spec_witness :
    (bottom_terminal.terminal_row < 24 →
        (terminal_putchar (2 ^ 32) bottom_terminal 10).terminal_buffer
          = bottom_terminal.terminal_buffer
        ∧ (terminal_putchar (2 ^ 32) bottom_terminal 10).terminal_row
          = bottom_terminal.terminal_row + 1
        ∧ (terminal_putchar (2 ^ 32) bottom_terminal 10).terminal_column = 0)
    ∧ (bottom_terminal.terminal_row = 24 →
        (terminal_putchar (2 ^ 32) bottom_terminal 10).terminal_buffer
          = (terminal_scroll bottom_terminal).terminal_buffer
        ∧ (terminal_putchar (2 ^ 32) bottom_terminal 10).terminal_row = 24
        ∧ (terminal_putchar (2 ^ 32) bottom_terminal 10).terminal_column = 0) :=
  terminal_putchar_newline_spec (2 ^ 32) (by norm_num) bottom_terminal
    (show (24 : Nat) < 25 by norm_num) (show (5 : Nat) < 80 by norm_num)


/-! ## One character more than the grid holds -/

theorem take_getD (cs : List Nat) (n i : Nat) (h : i < n) :
    (cs.take n).getD i 0 = cs.getD i 0 := by
  simp [List.getD_eq_getElem?_getD, List.getElem?_take, h]

theorem take_succ_getD (cs : List Nat) (n : Nat) (h : n < cs.length) :
    cs.take (n + 1) = cs.take n ++ [cs.getD n 0] := by
  rw [List.take_succ]
  simp [List.getD_eq_getElem?_getD, List.getElem?_eq_getElem h]

theorem getD_mem (cs : List Nat) (n : Nat) (h : n < cs.length) : cs.getD n 0 ∈ cs := by
  rw [List.getD_eq_getElem cs 0 h]
  exact List.getElem_mem h

theorem terminal_print_take_succ (sz : Nat) (t : Terminal) (cs : List Nat) (n : Nat)
    (h : n < cs.length) :
    terminal_print sz t (cs.take (n + 1))
      = terminal_putchar sz (terminal_print sz t (cs.take n)) (cs.getD n 0) := by
  rw [take_succ_getD cs n h, terminal_print_append]
  rfl

/-- Writing 2001 newline-free bytes from the origin, in steps: the state after
the first 1999, after the first 2000 and after all of them. -/
theorem terminal_print_overflow (sz : Nat) (hsz : 65536 ≤ sz) (t : Terminal)
    (cs : List Nat) (hrow : t.terminal_row = 0) (hcol : t.terminal_column = 0)
    (hlen : cs.length = 2001) (hnl : ∀ c ∈ cs, c ≠ 10) :
    (∀ n, n < 2000 → (terminal_print sz t (cs.take n)).scroll_calls = t.scroll_calls)
    ∧ (terminal_print sz t (cs.take 2000)).scroll_calls = t.scroll_calls + 1
    ∧ (terminal_print sz t cs).scroll_calls = t.scroll_calls + 1
    ∧ (terminal_print sz t cs).terminal_row = 24
    ∧ (terminal_print sz t cs).terminal_column = 1
    ∧ ∀ i, (terminal_print sz t cs).terminal_buffer i
        = if i < 1920 then vga_entry t.terminal_color (cs.getD (i + 80) 0)
          else if i = 1920 then vga_entry t.terminal_color (cs.getD 2000 0)
          else if i < 2000 then vga_entry t.terminal_color 32
          else t.terminal_buffer i := by
  have hb : in_bounds t := by
    simp only [in_bounds, hrow, hcol, VGA_HEIGHT, VGA_WIDTH]
    omega
  have ho : cursor_offset t = 0 := by
    simp only [cursor_offset, hrow, hcol, VGA_WIDTH]
  have hnl_take : ∀ n, ∀ c ∈ cs.take n, c ≠ 10 :=
    fun n c hc => hnl c (List.mem_of_mem_take hc)
  have hpre : ∀ n, n < 2000 →
      in_bounds (terminal_print sz t (cs.take n))
      ∧ cursor_offset (terminal_print sz t (cs.take n)) = n
      ∧ (terminal_print sz t (cs.take n)).scroll_calls = t.scroll_calls
      ∧ ∀ i, (terminal_print sz t (cs.take n)).terminal_buffer i
          = if i < n then vga_entry t.terminal_color (cs.getD i 0)
            else t.terminal_buffer i := by
    intro n hn
    have hl : (cs.take n).length = n := by
      rw [List.length_take, hlen]
      omega
    obtain ⟨h1, h2, h3, h4⟩ := terminal_print_no_scroll sz hsz (cs.take n) t hb
      (hnl_take n) (by rw [ho, hl]; omega)
    rw [ho, hl] at h2
    refine ⟨h1, by omega, h3, ?_⟩
    intro i
    rw [h4 i, ho, hl]
    by_cases hi : i < n
    · have : 0 ≤ i ∧ i < 0 + n := by omega
      rw [if_pos this, if_pos hi, Nat.sub_zero, take_getD cs n i hi]
    · have : ¬ (0 ≤ i ∧ i < 0 + n) := by omega
      rw [if_neg this, if_neg hi]
  -- the first 1999 bytes
  obtain ⟨hb1, ho1, hs1, hbuf1⟩ := hpre 1999 (by omega)
  have hcolor1 : (terminal_print sz t (cs.take 1999)).terminal_color = t.terminal_color :=
    terminal_print_color sz _ t
  -- the 2000th byte
  have ht2 : terminal_print sz t (cs.take 2000)
      = terminal_putchar sz (terminal_print sz t (cs.take 1999)) (cs.getD 1999 0) :=
    terminal_print_take_succ sz t cs 1999 (by omega)
  obtain ⟨hr2, hc2, hcolor2, hs2, hbuf2⟩ :=
    terminal_putchar_last sz (terminal_print sz t (cs.take 1999)) (cs.getD 1999 0)
      hsz hb1 (hnl _ (getD_mem cs 1999 (by omega))) ho1
  rw [← ht2] at hr2 hc2 hcolor2 hs2 hbuf2
  have hb2 : in_bounds (terminal_print sz t (cs.take 2000)) := by
    simp only [in_bounds, hr2, hc2, VGA_HEIGHT, VGA_WIDTH]
    omega
  have ho2 : cursor_offset (terminal_print sz t (cs.take 2000)) = 1920 := by
    simp only [cursor_offset, hr2, hc2, VGA_WIDTH]
  -- the 2001st byte
  have ht3 : terminal_print sz t (cs.take 2001)
      = terminal_putchar sz (terminal_print sz t (cs.take 2000)) (cs.getD 2000 0) :=
    terminal_print_take_succ sz t cs 2000 (by omega)
  have hall : cs.take 2001 = cs := by
    rw [← hlen]
    exact List.take_length cs
  rw [hall] at ht3
  obtain ⟨hb3, ho3, hcolor3, hs3, hbuf3⟩ :=
    terminal_putchar_step sz (terminal_print sz t (cs.take 2000)) (cs.getD 2000 0)
      hsz hb2 (hnl _ (getD_mem cs 2000 (by omega))) (by omega)
  rw [← ht3] at hb3 ho3 hcolor3 hs3 hbuf3
  obtain ⟨hr3, hc3⟩ := hb3
  simp only [cursor_offset, VGA_WIDTH, VGA_HEIGHT] at ho3 ho2 hr3 hc3
  refine ⟨fun n hn => (hpre n hn).2.2.1, by omega, by omega, by omega, by omega, ?_⟩
  intro i
  rw [hbuf3, hcolor2, hcolor1]
  simp only [write_cell, cursor_offset, VGA_WIDTH, hr2, hc2]
  by_cases hi : i = 1920
  · have : ¬ (i < 1920) := by omega
    rw [if_pos hi, if_neg this, if_pos hi]
  · rw [if_neg hi, hbuf2, terminal_scroll_buffer]
    by_cases hi2 : i < 1920
    · rw [if_pos hi2, if_pos hi2]
      simp only [write_cell]
      by_cases hi3 : i + 80 = 1999
      · rw [if_pos hi3, hcolor1, hi3]
      · rw [if_neg hi3, hbuf1, if_pos (by omega)]
    · rw [if_neg hi2, if_neg hi2, if_neg hi]
      by_cases hi4 : i < 2000
      · rw [if_pos hi4, if_pos hi4]
        exact congrArg (fun v => vga_entry v 32) hcolor1
      · rw [if_neg hi4, if_neg hi4]
        simp only [write_cell]
        rw [if_neg (by omega), hbuf1, if_neg (by omega)]


/-- C6. From a cleared surface, 80·25+1 non-newline bytes written one by one
with `terminal_putchar` call `terminal_scroll` exactly once, on the 2000th
byte; afterwards rows 0..23 hold the bytes written with index 80..1999 in
order, and row 24 holds the last byte in column 0 followed by 79 blank cells
with the current attribute. -/
theorem putchar_full_screen_plus_one (sz : Nat) (hsz : 65536 ≤ sz) (t0 : Terminal)
    (cs : List Nat) (hcolor : t0.terminal_color < 256) (hlen : cs.length = 80 * 25 + 1)
    (hnl : ∀ c ∈ cs, c ≠ 10) (hbyte : ∀ c ∈ cs, c < 256) :
    (∀ n, n < 2000 →
        (terminal_print sz (terminal_clear t0) (cs.take n)).scroll_calls
          = (terminal_clear t0).scroll_calls)
    ∧ (terminal_print sz (terminal_clear t0) (cs.take 2000)).scroll_calls
          = (terminal_clear t0).scroll_calls + 1
    ∧ (terminal_print sz (terminal_clear t0) cs).scroll_calls
          = (terminal_clear t0).scroll_calls + 1
    ∧ (∀ y x, y < 24 → x < 80 →
        cell_char ((terminal_print sz (terminal_clear t0) cs).terminal_buffer (y * 80 + x))
          = cs.getD ((y + 1) * 80 + x) 0)
    ∧ cell_char ((terminal_print sz (terminal_clear t0) cs).terminal_buffer (24 * 80))
          = cs.getD (80 * 25) 0
    ∧ (∀ x, 1 ≤ x → x < 80 →
        cell_char ((terminal_print sz (terminal_clear t0) cs).terminal_buffer (24 * 80 + x))
          = 32
        ∧ cell_attr ((terminal_print sz (terminal_clear t0) cs).terminal_buffer (24 * 80 + x))
          = t0.terminal_color) := by
  obtain ⟨h1, h2, h3, -, -, hbuf⟩ :=
    terminal_print_overflow sz hsz (terminal_clear t0) cs rfl rfl hlen hnl
  have hc : (terminal_clear t0).terminal_color = t0.terminal_color := rfl
  refine ⟨h1, h2, h3, ?_, ?_, ?_⟩
  · intro y x hy hx
    rw [hbuf, if_pos (by omega)]
    have : y * 80 + x + 80 = (y + 1) * 80 + x := by omega
    rw [this]
    exact cell_char_vga_entry _ _ (hbyte _ (getD_mem cs _ (by omega)))
  · rw [hbuf, if_neg (by omega), if_pos (by omega)]
    exact cell_char_vga_entry _ _ (hbyte _ (getD_mem cs _ (by omega)))
  · intro x hx1 hx2
    rw [hbuf, if_neg (by omega), if_neg (by omega), if_pos (by omega), hc]
    exact ⟨cell_char_vga_entry _ 32 (by norm_num),
      cell_attr_vga_entry _ 32 hcolor (by norm_num)⟩

theorem putchar_full_screen_plus_one_witness :
    (∀ n, n < 2000 →
        (terminal_print (2 ^ 32) (terminal_clear boot_terminal)
            ((List.replicate 2001 65).take n)).scroll_calls
          = (terminal_clear boot_terminal).scroll_calls)
    ∧ (terminal_print (2 ^ 32) (terminal_clear boot_terminal)
            ((List.replicate 2001 65).take 2000)).scroll_calls
          = (terminal_clear boot_terminal).scroll_calls + 1
    ∧ (terminal_print (2 ^ 32) (terminal_clear boot_terminal)
            (List.replicate 2001 65)).scroll_calls
          = (terminal_clear boot_terminal).scroll_calls + 1
    ∧ (∀ y x, y < 24 → x < 80 →
        cell_char ((terminal_print (2 ^ 32) (terminal_clear boot_terminal)
            (List.replicate 2001 65)).terminal_buffer (y * 80 + x))
          = (List.replicate 2001 65).getD ((y + 1) * 80 + x) 0)
    ∧ cell_char ((terminal_print (2 ^ 32) (terminal_clear boot_terminal)
            (List.replicate 2001 65)).terminal_buffer (24 * 80))
          = (List.replicate 2001 65).getD (80 * 25) 0
    ∧ (∀ x, 1 ≤ x → x < 80 →
        cell_char ((terminal_print (2 ^ 32) (terminal_clear boot_terminal)
            (List.replicate 2001 65)).terminal_buffer (24 * 80 + x))
          = 32
        ∧ cell_attr ((terminal_print (2 ^ 32) (terminal_clear boot_terminal)
            (List.replicate 2001 65)).terminal_buffer (24 * 80 + x))
          = boot_terminal.terminal_color) :=
  putchar_full_screen_plus_one (2 ^ 32) (by norm_num) boot_terminal (List.replicate 2001 65)
    (by decide) (List.length_replicate 2001 65)
    (fun c hc => by rw [List.eq_of_mem_replicate hc]; decide)
    (fun c hc => by rw [List.eq_of_mem_replicate hc]; decide)

/-! ## `print_centered` -/

/-- The start column of `print_centered` for a text that fits in a row. -/
theorem centered_start_of_le (sz len : Nat) (hsz : 65536 ≤ sz) (hlen : len ≤ 80) :
    ((VGA_WIDTH + sz - len % sz) % sz) / 2 = (80 - len) / 2 := by
  have h1 : len % sz = len := Nat.mod_eq_of_lt (by omega)
  have h2 : VGA_WIDTH + sz - len = (80 - len) + sz := by
    simp only [VGA_WIDTH]
    omega
  rw [h1, h2, Nat.add_mod_right, Nat.mod_eq_of_lt (by omega)]

/-- Printing text, newlines included, that neither reaches the end of a row nor
leaves the bottom row: nothing scrolls, the row advances by the number of
newlines and the cells before the cursor stay as they were. -/
theorem terminal_print_lines (sz : Nat) (hsz : 65536 ≤ sz) (data : List Nat)
    (t : Terminal) (hb : in_bounds t)
    (hcols : t.terminal_column + data.length < 80 + data.count 10)
    (hrows : t.terminal_row + data.count 10 < 25) :
    in_bounds (terminal_print sz t data)
    ∧ (terminal_print sz t data).terminal_row = t.terminal_row + data.count 10
    ∧ (terminal_print sz t data).scroll_calls = t.scroll_calls
    ∧ ∀ i, i < cursor_offset t →
        (terminal_print sz t data).terminal_buffer i = t.terminal_buffer i := by
  induction data generalizing t with
  | nil => exact ⟨hb, rfl, rfl, fun i _ => rfl⟩
  | cons c cs ih =>
    rw [terminal_print_cons]
    have hle : cs.count 10 ≤ cs.length := List.count_le_length 10 cs
    obtain ⟨hr, hcol⟩ := id hb
    simp only [VGA_HEIGHT, VGA_WIDTH] at hr hcol
    by_cases hc : c = 10
    · subst hc
      simp only [List.count_cons_self, List.length_cons] at hcols hrows ⊢
      have h5 : ¬ (t.terminal_row + 1 = 25) := by omega
      have hstep := terminal_putchar_newline_eq sz t hsz hb
      rw [if_neg h5] at hstep
      have hr1 : (terminal_putchar sz t 10).terminal_row = t.terminal_row + 1 := by
        rw [hstep]; rfl
      have hc1 : (terminal_putchar sz t 10).terminal_column = 0 := by
        rw [hstep]; rfl
      have hs1 : (terminal_putchar sz t 10).scroll_calls = t.scroll_calls := by
        rw [hstep]; rfl
      have hbuf1 : (terminal_putchar sz t 10).terminal_buffer = t.terminal_buffer := by
        rw [hstep]; rfl
      have hb1 : in_bounds (terminal_putchar sz t 10) := by
        simp only [in_bounds, hr1, hc1, VGA_HEIGHT, VGA_WIDTH]
        omega
      obtain ⟨h1, h2, h3, h4⟩ := ih (terminal_putchar sz t 10) hb1
        (by rw [hc1]; omega) (by rw [hr1]; omega)
      refine ⟨h1, by rw [h2, hr1]; omega, by rw [h3, hs1], ?_⟩
      intro i hi
      rw [h4 i (by
        simp only [cursor_offset, hr1, hc1, VGA_WIDTH] at hi ⊢
        omega), hbuf1]
    · have hcount : (c :: cs).count 10 = cs.count 10 := by
        rw [List.count_cons]
        simp [hc]
      rw [hcount] at hcols hrows ⊢
      simp only [List.length_cons] at hcols
      obtain ⟨hb1, ho1, -, hs1, hbuf1⟩ := terminal_putchar_step sz t c hsz hb hc (by
        simp only [cursor_offset, VGA_WIDTH]
        omega)
      have hrc : (terminal_putchar sz t c).terminal_row = t.terminal_row
          ∧ (terminal_putchar sz t c).terminal_column = t.terminal_column + 1 := by
        obtain ⟨hr1, hc1⟩ := hb1
        simp only [cursor_offset, VGA_HEIGHT, VGA_WIDTH] at ho1 hr1 hc1
        constructor <;> omega
      obtain ⟨h1, h2, h3, h4⟩ := ih (terminal_putchar sz t c) hb1
        (by rw [hrc.2]; omega) (by rw [hrc.1]; omega)
      refine ⟨h1, by rw [h2, hrc.1], by rw [h3, hs1], ?_⟩
      intro i hi
      rw [h4 i (by omega), hbuf1]
      simp only [write_cell]
      rw [if_neg (by omega)]

/-- C7, amended. For every string s of bytes with 1 ≤ length(s) ≤ 80 whose
first character is not a newline and every row r < 25 such that printing does
not scroll, that is r plus the number of newlines of s, plus one when s is 80
characters without a newline, is at most 24: after `print_centered(s, r)` the
attribute is the one before and the cell at row r, column
⌊(80 − length(s))/2⌋ holds the first character of s. -/
theorem print_centered_first_char (sz : Nat) (hsz : 65536 ≤ sz) (t : Terminal)
    (s : List Nat) (r : Nat) (hlen1 : 1 ≤ s.length) (hlen2 : s.length ≤ 80)
    (hr : r < 25) (hbyte : ∀ c ∈ s, c < 256) (hfirst : s.getD 0 0 ≠ 10)
    (hrows : r + s.count 10 + (if s.length = 80 ∧ s.count 10 = 0 then 1 else 0) < 25) :
    (print_centered sz t s r).terminal_color = t.terminal_color
    ∧ cell_char ((print_centered sz t s r).terminal_buffer
        (r * 80 + (80 - s.length) / 2)) = s.getD 0 0 := by
  unfold print_centered strlen
  simp only [centered_start_of_le sz s.length hsz hlen2]
  constructor
  · rw [terminal_print_color]
  · have hb : in_bounds
        { t with terminal_row := r, terminal_column := (80 - s.length) / 2 } := by
      simp only [in_bounds, VGA_HEIGHT, VGA_WIDTH]
      omega
    by_cases hz : s.count 10 = 0
    · have hnl : ∀ c ∈ s, c ≠ 10 := by
        intro c hc h
        subst h
        exact (List.count_eq_zero.mp hz) hc
      have hfit : ¬ (s.length = 80 ∧ r = 24) := by
        intro h
        rw [if_pos ⟨h.1, hz⟩] at hrows
        omega
      obtain ⟨-, -, -, hbuf⟩ := terminal_print_no_scroll sz hsz s _ hb hnl (by
        simp only [cursor_offset, VGA_WIDTH]
        omega)
      rw [hbuf]
      simp only [cursor_offset, VGA_WIDTH]
      rw [if_pos (by omega), Nat.sub_self]
      exact cell_char_vga_entry _ _ (hbyte _ (getD_mem s 0 (by omega)))
    · rw [if_neg (fun h => hz h.2)] at hrows
      cases s with
      | nil => simp at hlen1
      | cons c rest =>
        have hc : c ≠ 10 := hfirst
        have hcount : (c :: rest).count 10 = rest.count 10 := by
          rw [List.count_cons]
          simp [hc]
        rw [hcount] at hz hrows
        have hle : rest.count 10 ≤ rest.length := List.count_le_length 10 rest
        simp only [List.length_cons] at hlen2 hb ⊢
        rw [terminal_print_cons]
        obtain ⟨hb1, ho1, -, -, hbuf1⟩ := terminal_putchar_step sz _ c hsz hb hc (by
          simp only [cursor_offset, VGA_WIDTH]
          omega)
        have hrc := hb1
        obtain ⟨hr1, hc1⟩ := hrc
        simp only [cursor_offset, VGA_HEIGHT, VGA_WIDTH] at ho1 hr1 hc1
        obtain ⟨-, -, -, hbuf⟩ := terminal_print_lines sz hsz rest _ hb1
          (by omega) (by omega)
        rw [hbuf _ (by
          simp only [cursor_offset, VGA_WIDTH]
          omega), hbuf1]
        simp only [write_cell, cursor_offset, VGA_WIDTH, if_true]
        exact cell_char_vga_entry _ _ (hbyte c (List.mem_cons_self c rest))

theorem print_centered_first_char_witness :
    (print_centered (2 ^ 32) boot_terminal [78, 105, 120, 10, 79, 83] 12).terminal_color
      = boot_terminal.terminal_color
    ∧ cell_char ((print_centered (2 ^ 32) boot_terminal [78, 105, 120, 10, 79, 83]
          12).terminal_buffer (12 * 80 + (80 - [78, 105, 120, 10, 79, 83].length) / 2))
      = [78, 105, 120, 10, 79, 83].getD 0 0 :=
  print_centered_first_char (2 ^ 32) (by norm_num) boot_terminal [78, 105, 120, 10, 79, 83] 12
    (by decide) (by decide) (by decide) (by decide) (by decide) (by decide)

set_option maxRecDepth 100000 in
/-- C7 as stated fails twice. A string of 80 letters A centered on row 24
starts at (24, 0), fills the row and scrolls: the cell (24, 0) is then a blank
and the first character sits on row 23. A string whose first character is a
newline writes no cell at all. -/
theorem print_centered_first_char_counterexample :
    ((List.replicate 80 65).length = 80
      ∧ cell_char ((print_centered (2 ^ 32) boot_terminal (List.replicate 80 65) 24).terminal_buffer
          (24 * 80 + (80 - (List.replicate 80 65).length) / 2)) = 32
      ∧ cell_char ((print_centered (2 ^ 32) boot_terminal (List.replicate 80 65) 24).terminal_buffer
          (23 * 80)) = 65
      ∧ (List.replicate 80 65).getD 0 0 = 65)
    ∧ ([10, 65].length = 2
      ∧ cell_char ((print_centered (2 ^ 32) boot_terminal [10, 65] 3).terminal_buffer
          (3 * 80 + (80 - [10, 65].length) / 2)) = 0
      ∧ [10, 65].getD 0 0 = 10) := by
  decide

set_option maxRecDepth 100000 in
/-- C8, evaluated at the 81-byte string "a" followed by 80 letters b. The
start column is (2^32 − 1)/2 = 2147483647 for a 32-bit `size_t` (and
(2^64 − 1)/2 for a 64-bit one), not 0, so the column after printing is
2147483647 + 81. On row 12, the row `cmd_echo` uses, the first store goes
through the index 12·80 + 2147483647, which is not an index of the grid and
whose address wraps to the cell 959: the first character lands on (11, 79),
the cell (12, 0) receives the second character, and `cmd_echo` does the same
over its repaint. On row 0 the first store lands on the cell 2147483647, the
16-bit cell just below the grid in memory, outside the 80·25 cells. -/
theorem print_centered_long_text :
    (97 :: List.replicate 80 98).length = 81
    ∧ ((VGA_WIDTH + 2 ^ 32 - 81 % 2 ^ 32) % 2 ^ 32) / 2 = 2147483647
    ∧ (print_centered (2 ^ 32) boot_terminal (97 :: List.replicate 80 98) 12).terminal_column
        = 2147483647 + 81
    ∧ 80 * 25 ≤ 12 * 80 + 2147483647
    ∧ cell_index (2 ^ 32) (12 * 80 + 2147483647) = 11 * 80 + 79
    ∧ boot_terminal.terminal_buffer (11 * 80 + 79) = 0
    ∧ (print_centered (2 ^ 32) boot_terminal (97 :: List.replicate 80 98) 12).terminal_buffer
        (11 * 80 + 79) = vga_entry 7 97
    ∧ (print_centered (2 ^ 32) boot_terminal (97 :: List.replicate 80 98) 12).terminal_buffer
        (12 * 80) = vga_entry 7 98
    ∧ cell_index (2 ^ 64) (12 * 80 + 9223372036854775807) = 11 * 80 + 79
    ∧ (print_centered (2 ^ 64) boot_terminal (97 :: List.replicate 80 98) 12).terminal_buffer
        (11 * 80 + 79) = vga_entry 7 97
    ∧ (print_centered (2 ^ 64) boot_terminal (97 :: List.replicate 80 98) 12).terminal_buffer
        (12 * 80) = vga_entry 7 98
    ∧ (cmd_echo (2 ^ 32) boot_terminal (97 :: List.replicate 80 98)).terminal_buffer
        (11 * 80 + 79) = vga_entry 7 97
    ∧ (cmd_echo (2 ^ 32) boot_terminal (97 :: List.replicate 80 98)).terminal_buffer
        (12 * 80) = vga_entry 7 98
    ∧ cell_index (2 ^ 32) (0 * 80 + 2147483647) = 2147483647
    ∧ 80 * 25 ≤ cell_index (2 ^ 32) (0 * 80 + 2147483647)
    ∧ boot_terminal.terminal_buffer 2147483647 = 0
    ∧ (print_centered (2 ^ 32) boot_terminal (97 :: List.replicate 80 98) 0).terminal_buffer
        2147483647 = vga_entry 7 97
    ∧ (print_centered (2 ^ 32) boot_terminal (97 :: List.replicate 80 98) 0).terminal_buffer
        (0 * 80) = vga_entry 7 98 := by
  decide

/-! ## The scan-code decoder -/

set_option maxRecDepth 100000 in
theorem press_code_high_bit : ∀ b < 128, b &&& 0x80 = 0 := by
  decide

set_option maxRecDepth 100000 in
theorem release_code_low_bits : ∀ b < 256, b &&& 0x80 ≠ 0 → b &&& 0x7F = b - 0x80 := by
  decide

/-- After a press code is decoded its flag is set, whatever it was before. -/
theorem get_keyboard_input_sets_flag (key_pressed : Nat → Nat) (b : Nat) (hb : b < 0x80) :
    (get_keyboard_input key_pressed b).2 b ≠ 0 := by
  unfold get_keyboard_input
  have h0 : ¬ (b &&& 0x80 ≠ 0) := fun h => h (press_code_high_bit b hb)
  rw [if_neg h0]
  by_cases h1 : key_pressed b = 0
  · rw [if_pos h1]
    by_cases h2 : b < scancode_to_ascii.length
    · simp [h2]
    · simp [h2]
  · rw [if_neg h1]
    exact h1

/-- A press code whose flag is set decodes to no character and leaves the table
as it is. -/
theorem get_keyboard_input_repeat (key_pressed : Nat → Nat) (b : Nat) (hb : b < 0x80)
    (hflag : key_pressed b ≠ 0) :
    get_keyboard_input key_pressed b = (0, key_pressed) := by
  unfold get_keyboard_input
  have h0 : ¬ (b &&& 0x80 ≠ 0) := fun h => h (press_code_high_bit b hb)
  rw [if_neg h0, if_neg hflag]

/-- C9. Decoder repeat suppression: for every key-state table and every press
scan code b < 0x80, the second of two decodes of b in a row returns 0 (no
character) and leaves the table as the first decode left it; when b is a table
code with a non-zero entry and its flag was clear, the first decode returns
that entry, so the results are (character, no character). -/
theorem get_keyboard_input_twice (key_pressed : Nat → Nat) (b : Nat) (hb : b < 0x80) :
    (get_keyboard_input (get_keyboard_input key_pressed b).2 b).1 = 0
    ∧ (get_keyboard_input (get_keyboard_input key_pressed b).2 b).2
        = (get_keyboard_input key_pressed b).2
    ∧ (b < 58 → scancode_to_ascii.getD b 0 ≠ 0 → key_pressed b = 0 →
        (get_keyboard_input key_pressed b).1 = scancode_to_ascii.getD b 0
        ∧ (get_keyboard_input key_pressed b).1 ≠ 0) := by
  have hrep := get_keyboard_input_repeat (get_keyboard_input key_pressed b).2 b hb
    (get_keyboard_input_sets_flag key_pressed b hb)
  refine ⟨by rw [hrep], by rw [hrep], ?_⟩
  intro h58 hentry hclear
  have h0 : ¬ (b &&& 0x80 ≠ 0) := fun h => h (press_code_high_bit b hb)
  have hlen : b < scancode_to_ascii.length := h58
  have hfirst : (get_keyboard_input key_pressed b).1 = scancode_to_ascii.getD b 0 := by
    unfold get_keyboard_input
    rw [if_neg h0, if_pos hclear]
    simp only [if_pos hlen]
  exact ⟨hfirst, by rw [hfirst]; exact hentry⟩

theorem get_keyboard_input_twice_witness :
    (get_keyboard_input (get_keyboard_input (fun _ => 0) 30).2 30).1 = 0
    ∧ (get_keyboard_input (get_keyboard_input (fun _ => 0) 30).2 30).2
        = (get_keyboard_input (fun _ => 0) 30).2
    ∧ (30 < 58 → scancode_to_ascii.getD 30 0 ≠ 0 → (fun _ : Nat => 0) 30 = 0 →
        (get_keyboard_input (fun _ => 0) 30).1 = scancode_to_ascii.getD 30 0
        ∧ (get_keyboard_input (fun _ => 0) 30).1 ≠ 0) :=
  get_keyboard_input_twice (fun _ => 0) 30 (by decide)

/-- C10. Decoder release: for every key-state table and every byte b with the
high bit 0x80 set, `get_keyboard_input` returns 0 (no character), clears the
pressed flag of the code b & 0x7F, which is b − 0x80, and leaves the flag of
every other code as it was. -/
theorem get_keyboard_input_release (key_pressed : Nat → Nat) (b : Nat) (hbyte : b < 256)
    (hhigh : b &&& 0x80 ≠ 0) :
    (get_keyboard_input key_pressed b).1 = 0
    ∧ (get_keyboard_input key_pressed b).2 (b &&& 0x7F) = 0
    ∧ b &&& 0x7F = b - 0x80
    ∧ ∀ i, i ≠ b &&& 0x7F → (get_keyboard_input key_pressed b).2 i = key_pressed i := by
  unfold get_keyboard_input
  rw [if_pos hhigh]
  refine ⟨rfl, ?_, release_code_low_bits b hbyte hhigh, ?_⟩
  · simp only [if_true]
  · intro i hi
    simp only [if_neg hi]

theorem get_keyboard_input_release_witness :
    (get_keyboard_input (fun _ => 1) 0x9E).1 = 0
    ∧ (get_keyboard_input (fun _ => 1) 0x9E).2 (0x9E &&& 0x7F) = 0
    ∧ 0x9E &&& 0x7F = 0x9E - 0x80
    ∧ ∀ i, i ≠ 0x9E &&& 0x7F → (get_keyboard_input (fun _ => 1) 0x9E).2 i = (fun _ => 1) i :=
  get_keyboard_input_release (fun _ => 1) 0x9E (by decide) (by decide)


/-! ## The scan-code decoder: lookup -/

/-- C11. Decoder lookup: for a press scan code b < 0x80 whose pressed flag is
clear, `get_keyboard_input` sets that flag and no other, returns the entry b of
the 58-entry table when b < 58 and 0 (no character) when b ≥ 58; the entries
of codes 0, 1, 29, 42, 54 and 56 are zero, code 28 gives newline, code 14
backspace and code 57 space. -/
theorem get_keyboard_input_press (key_pressed : Nat → Nat) (b : Nat) (hb : b < 0x80)
    (hclear : key_pressed b = 0) :
    (get_keyboard_input key_pressed b).2 b = 1
    ∧ (∀ i, i ≠ b → (get_keyboard_input key_pressed b).2 i = key_pressed i)
    ∧ (b < 58 → (get_keyboard_input key_pressed b).1 = scancode_to_ascii.getD b 0)
    ∧ (58 ≤ b → (get_keyboard_input key_pressed b).1 = 0)
    ∧ scancode_to_ascii.length = 58
    ∧ (∀ k ∈ [0, 1, 29, 42, 54, 56], scancode_to_ascii.getD k 0 = 0)
    ∧ scancode_to_ascii.getD 28 0 = 10
    ∧ scancode_to_ascii.getD 14 0 = 8
    ∧ scancode_to_ascii.getD 57 0 = 32 := by
  have h0 : ¬ (b &&& 0x80 ≠ 0) := fun h => h (press_code_high_bit b hb)
  have hlen : scancode_to_ascii.length = 58 := rfl
  refine ⟨?_, ?_, ?_, ?_, hlen, by decide, by decide, by decide, by decide⟩
  · unfold get_keyboard_input
    rw [if_neg h0, if_pos hclear]
    by_cases h2 : b < scancode_to_ascii.length
    · simp only [if_pos h2, if_true]
    · simp only [if_neg h2, if_true]
  · intro i hi
    unfold get_keyboard_input
    rw [if_neg h0, if_pos hclear]
    by_cases h2 : b < scancode_to_ascii.length
    · simp only [if_pos h2, if_neg hi]
    · simp only [if_neg h2, if_neg hi]
  · intro h58
    unfold get_keyboard_input
    rw [if_neg h0, if_pos hclear]
    simp only [hlen, if_pos h58]
  · intro h58
    unfold get_keyboard_input
    rw [if_neg h0, if_pos hclear]
    simp only [hlen, if_neg (Nat.not_lt.mpr h58)]

theorem get_keyboard_input_press_witness :
    (get_keyboard_input (fun _ => 0) 28).2 28 = 1
    ∧ (∀ i, i ≠ 28 → (get_keyboard_input (fun _ => 0) 28).2 i = (fun _ => 0) i)
    ∧ (28 < 58 → (get_keyboard_input (fun _ => 0) 28).1 = scancode_to_ascii.getD 28 0)
    ∧ (58 ≤ 28 → (get_keyboard_input (fun _ => 0) 28).1 = 0)
    ∧ scancode_to_ascii.length = 58
    ∧ (∀ k ∈ [0, 1, 29, 42, 54, 56], scancode_to_ascii.getD k 0 = 0)
    ∧ scancode_to_ascii.getD 28 0 = 10
    ∧ scancode_to_ascii.getD 14 0 = 8
    ∧ scancode_to_ascii.getD 57 0 = 32 :=
  get_keyboard_input_press (fun _ => 0) 28 (by decide) rfl

/-! ## Command processing -/

theorem args_loop_eq (l : List Nat) (j : Nat) : args_loop l j = l.take (191 - j) := by
  induction l generalizing j with
  | nil => simp [args_loop]
  | cons c rest ih =>
    unfold args_loop
    by_cases h : j < 191
    · rw [if_pos h, ih]
      have : 191 - j = (191 - (j + 1)) + 1 := by omega
      rw [this, List.take_succ_cons]
    · rw [if_neg h]
      have : 191 - j = 0 := by omega
      rw [this, List.take_zero]

theorem command_loop_spec (l : List Nat) (i : Nat) :
    (command_loop l i).1 = (l.takeWhile (fun c => c ≠ 32)).take (63 - i)
    ∧ args_of (command_loop l i).2
        = if (l.takeWhile (fun c => c ≠ 32)).length ≤ 63 - i then
            ((l.dropWhile (fun c => c ≠ 32)).drop 1).take 191
          else [] := by
  induction l generalizing i with
  | nil => simp [command_loop, args_of]
  | cons c rest ih =>
    unfold command_loop
    by_cases hc : c = 32
    · subst hc
      simp [args_of, args_loop_eq]
    · by_cases hi : i < 63
      · rw [if_pos ⟨hc, hi⟩]
        obtain ⟨h1, h2⟩ := ih (i + 1)
        have e : 63 - i = (63 - (i + 1)) + 1 := by omega
        simp only [h1, h2]
        rw [e]
        simp [hc]
      · rw [if_neg (fun h => hi h.2)]
        have e : 63 - i = 0 := by omega
        simp [args_of, hc, e]

/-- What the parsing part of `process_command` leaves in `command` and `args`,
in terms of the text before and after the first space. -/
theorem parse_command_spec (cmd : List Nat) :
    (parse_command cmd).1 = spec_command_name cmd
    ∧ ((cmd.takeWhile (fun c => c ≠ 32)).length ≤ 63 →
        (parse_command cmd).2 = spec_arguments cmd)
    ∧ (63 < (cmd.takeWhile (fun c => c ≠ 32)).length → (parse_command cmd).2 = [])
    ∧ (parse_command cmd).1.length ≤ 63
    ∧ (parse_command cmd).2.length ≤ 191 := by
  obtain ⟨h1, h2⟩ := command_loop_spec cmd 0
  have e1 : (parse_command cmd).1 = (command_loop cmd 0).1 := rfl
  have e2 : (parse_command cmd).2 = args_of (command_loop cmd 0).2 := rfl
  rw [e1, e2, h1, h2]
  simp only [Nat.sub_zero, spec_command_name, spec_arguments]
  refine ⟨trivial, ?_, ?_, ?_, ?_⟩
  · intro h
    rw [if_pos h]
  · intro h
    rw [if_neg (by omega)]
  · rw [List.length_take]
    omega
  · split
    · rw [List.length_take]
      omega
    · simp

/-- C12, amended. `process_command` copies to `command` the text before the
first space truncated to its first 63 characters, and that is the name it looks
up. When that text has at most 63 characters, `args` is the text after the
first space, empty if there is no space, truncated to its first 191
characters; when it has more than 63 characters, `args` is empty. -/
theorem process_command_parsing (cmd : List Nat) :
    (parse_command cmd).1 = spec_command_name cmd
    ∧ ((cmd.takeWhile (fun c => c ≠ 32)).length ≤ 63 →
        (parse_command cmd).2 = spec_arguments cmd)
    ∧ (63 < (cmd.takeWhile (fun c => c ≠ 32)).length → (parse_command cmd).2 = [])
    ∧ (parse_command cmd).1.length ≤ 63
    ∧ (parse_command cmd).2.length ≤ 191 :=
  parse_command_spec cmd

theorem process_command_parsing_witness :
    (parse_command [104, 105, 32, 97, 32, 98]).1 = spec_command_name [104, 105, 32, 97, 32, 98]
    ∧ (([104, 105, 32, 97, 32, 98].takeWhile (fun c => c ≠ 32)).length ≤ 63 →
        (parse_command [104, 105, 32, 97, 32, 98]).2 = spec_arguments [104, 105, 32, 97, 32, 98])
    ∧ (63 < ([104, 105, 32, 97, 32, 98].takeWhile (fun c => c ≠ 32)).length →
        (parse_command [104, 105, 32, 97, 32, 98]).2 = [])
    ∧ (parse_command [104, 105, 32, 97, 32, 98]).1.length ≤ 63
    ∧ (parse_command [104, 105, 32, 97, 32, 98]).2.length ≤ 191 :=
  process_command_parsing [104, 105, 32, 97, 32, 98]

set_option maxRecDepth 100000 in
/-- C12 as stated fails on a name of 64 letters a followed by " x": the text
after the first space is "x", but the first loop stops after 63 letters, the
byte it stops on is a letter and not the space, and `args` stays empty. -/
theorem process_command_parsing_counterexample :
    (List.replicate 64 97 ++ [32, 120]).length = 66
    ∧ spec_arguments (List.replicate 64 97 ++ [32, 120]) = [120]
    ∧ (parse_command (List.replicate 64 97 ++ [32, 120])).2 = []
    ∧ (parse_command (List.replicate 64 97 ++ [32, 120])).1 = List.replicate 63 97 := by
  decide

theorem strcmp_eq_zero_iff (a b : List Nat) (ha : ∀ c ∈ a, c ≠ 0) (hb : ∀ c ∈ b, c ≠ 0) :
    strcmp a b = 0 ↔ a = b := by
  induction a generalizing b with
  | nil =>
    cases b with
    | nil => simp [strcmp]
    | cons y ys =>
      have hy : y ≠ 0 := hb y (List.mem_cons_self y ys)
      simp only [strcmp]
      constructor
      · intro h
        omega
      · intro h
        cases h
  | cons x xs ih =>
    have hx : x ≠ 0 := ha x (List.mem_cons_self x xs)
    cases b with
    | nil =>
      simp only [strcmp]
      constructor
      · intro h
        omega
      · intro h
        cases h
    | cons y ys =>
      simp only [strcmp]
      by_cases hxy : x = y
      · subst hxy
        rw [if_pos ⟨hx, rfl⟩]
        rw [ih ys (fun c hc => ha c (List.mem_cons_of_mem x hc))
          (fun c hc => hb c (List.mem_cons_of_mem x hc))]
        simp
      · rw [if_neg (fun h => hxy h.2)]
        constructor
        · intro h
          omega
        · intro h
          injection h with h1 h2
          exact absurd h1 hxy


theorem parse_command_mem (cmd : List Nat) :
    (∀ c ∈ (parse_command cmd).1, c ∈ cmd) ∧ (∀ c ∈ (parse_command cmd).2, c ∈ cmd) := by
  obtain ⟨h1, -, -, -, -⟩ := parse_command_spec cmd
  constructor
  · intro c hc
    rw [h1] at hc
    exact (List.takeWhile_sublist _).subset (List.mem_of_mem_take hc)
  · intro c hc
    by_cases h : (cmd.takeWhile (fun c => c ≠ 32)).length ≤ 63
    · rw [(parse_command_spec cmd).2.1 h] at hc
      exact (List.dropWhile_sublist _).subset (List.mem_of_mem_drop (List.mem_of_mem_take hc))
    · rw [(parse_command_spec cmd).2.2.1 (by omega)] at hc
      cases hc

/-- C15. Empty line: `process_command("")` returns at once; the buffer, the
cursor and the attribute are the ones before and no handler is called. -/
theorem process_command_empty (sz : Nat) (t : Terminal) :
    process_command sz t [] = (t, none)
    ∧ (process_command sz t []).1.terminal_buffer = t.terminal_buffer
    ∧ (process_command sz t []).1.terminal_row = t.terminal_row
    ∧ (process_command sz t []).1.terminal_column = t.terminal_column
    ∧ (process_command sz t []).1.terminal_color = t.terminal_color
    ∧ (process_command sz t []).2 = none := by
  have h : process_command sz t [] = (t, none) := rfl
  rw [h]
  exact ⟨rfl, rfl, rfl, rfl, rfl, rfl⟩

theorem parse_command_echo (a : List Nat) (hlen : a.length ≤ 191) :
    parse_command (name_echo ++ 32 :: a) = (name_echo, a) := by
  have h : parse_command (name_echo ++ 32 :: a) = (name_echo, args_loop a 0) := by
    simp [parse_command, name_echo, command_loop, args_of]
  rw [h, args_loop_eq, Nat.sub_zero, List.take_of_length_le hlen]

set_option maxRecDepth 100000 in
/-- C13. For every argument string a of length ≤ 191, spaces allowed,
`process_command("echo " ++ a)` parses the name "echo", hands a to `cmd_echo`
as it is and has exactly the effect of `cmd_echo(a)`; "echo hello world"
passes "hello world"; with an empty a the display state is the one before. -/
theorem process_command_echo (sz : Nat) (t : Terminal) (a : List Nat)
    (hlen : a.length ≤ 191) :
    parse_command (name_echo ++ 32 :: a) = (name_echo, a)
    ∧ process_command sz t (name_echo ++ 32 :: a) = (cmd_echo sz t a, some Handler.echo)
    ∧ (a = [] → (process_command sz t (name_echo ++ 32 :: a)).1 = t)
    ∧ parse_command [101, 99, 104, 111, 32, 104, 101, 108, 108, 111, 32, 119, 111, 114, 108, 100]
        = ([101, 99, 104, 111], [104, 101, 108, 108, 111, 32, 119, 111, 114, 108, 100]) := by
  have hp := parse_command_echo a hlen
  have hrun : process_command sz t (name_echo ++ 32 :: a)
      = (cmd_echo sz t a, some Handler.echo) := by
    unfold process_command
    have h0 : ¬ (strlen (name_echo ++ 32 :: a) = 0) := by simp [strlen]
    rw [if_neg h0]
    simp only [hp]
    have h1 : ¬ (strcmp name_echo name_help = 0) := by decide
    have h2 : ¬ (strcmp name_echo name_clear = 0) := by decide
    have h3 : strcmp name_echo name_echo = 0 := by decide
    rw [if_neg h1, if_neg h2, if_pos h3]
  refine ⟨hp, hrun, ?_, by decide⟩
  intro ha
  rw [hrun, ha]
  rfl

theorem process_command_echo_witness :
    parse_command (name_echo ++ 32 :: [104, 105, 32, 32, 121, 111, 117])
      = (name_echo, [104, 105, 32, 32, 121, 111, 117])
    ∧ process_command (2 ^ 32) boot_terminal (name_echo ++ 32 :: [104, 105, 32, 32, 121, 111, 117])
      = (cmd_echo (2 ^ 32) boot_terminal [104, 105, 32, 32, 121, 111, 117], some Handler.echo)
    ∧ ([104, 105, 32, 32, 121, 111, 117] = [] →
        (process_command (2 ^ 32) boot_terminal
          (name_echo ++ 32 :: [104, 105, 32, 32, 121, 111, 117])).1 = boot_terminal)
    ∧ parse_command [101, 99, 104, 111, 32, 104, 101, 108, 108, 111, 32, 119, 111, 114, 108, 100]
        = ([101, 99, 104, 111], [104, 101, 108, 108, 111, 32, 119, 111, 114, 108, 100]) :=
  process_command_echo (2 ^ 32) boot_terminal [104, 105, 32, 32, 121, 111, 117] (by decide)

theorem process_command_eq (sz : Nat) (t : Terminal) (line : List Nat) (hne : line ≠ [])
    (hz : ∀ c ∈ line, c ≠ 0) :
    process_command sz t line =
      if (parse_command line).1 = name_help then (cmd_help sz t, some Handler.help)
      else if (parse_command line).1 = name_clear then (cmd_clear t, some Handler.clear)
      else if (parse_command line).1 = name_echo then
        (cmd_echo sz t (parse_command line).2, some Handler.echo)
      else if (parse_command line).1 = name_uptime then (cmd_uptime sz t, some Handler.uptime)
      else if (parse_command line).1 = name_version then
        (cmd_version sz t, some Handler.version)
      else if (parse_command line).1 = name_reboot then (cmd_reboot sz t, some Handler.reboot)
      else (terminal_print sz t (str_unknown ++ (parse_command line).1 ++ str_hint), none) := by
  have hname : ∀ c ∈ (parse_command line).1, c ≠ 0 :=
    fun c hc => hz c ((parse_command_mem line).1 c hc)
  have h0 : ¬ (strlen line = 0) := by
    simp only [strlen]
    intro h
    exact hne (List.length_eq_zero.mp h)
  have e1 := strcmp_eq_zero_iff (parse_command line).1 name_help hname (by decide)
  have e2 := strcmp_eq_zero_iff (parse_command line).1 name_clear hname (by decide)
  have e3 := strcmp_eq_zero_iff (parse_command line).1 name_echo hname (by decide)
  have e4 := strcmp_eq_zero_iff (parse_command line).1 name_uptime hname (by decide)
  have e5 := strcmp_eq_zero_iff (parse_command line).1 name_version hname (by decide)
  have e6 := strcmp_eq_zero_iff (parse_command line).1 name_reboot hname (by decide)
  unfold process_command
  rw [if_neg h0]
  simp only [e1, e2, e3, e4, e5, e6, terminal_print_append]

/-- C14. Unknown command: for every non-empty line whose parsed command name
is not exactly one of "help", "clear", "echo", "uptime", "version", "reboot",
`process_command` calls no handler and its effect on the display state is that
of `terminal_print` of "Unknown command: ", the name and
"\nType 'help' for available commands.\n"; a name equal to one of the six
calls a handler; "hel", "helpx" and "Help" are not among the six. -/
theorem process_command_unknown (sz : Nat) (t : Terminal) (line : List Nat)
    (hne : line ≠ []) (hz : ∀ c ∈ line, c ≠ 0) :
    ((parse_command line).1 ∉ command_names →
        process_command sz t line
          = (terminal_print sz t (str_unknown ++ (parse_command line).1 ++ str_hint), none))
    ∧ ((parse_command line).1 ∈ command_names →
        ∃ h, (process_command sz t line).2 = some h)
    ∧ [104, 101, 108] ∉ command_names
    ∧ [104, 101, 108, 112, 120] ∉ command_names
    ∧ [72, 101, 108, 112] ∉ command_names := by
  rw [process_command_eq sz t line hne hz]
  refine ⟨?_, ?_, by decide, by decide, by decide⟩
  · intro h
    simp only [command_names, List.mem_cons, List.mem_singleton, not_or, List.not_mem_nil,
      or_false] at h
    obtain ⟨h1, h2, h3, h4, h5, h6⟩ := h
    rw [if_neg h1, if_neg h2, if_neg h3, if_neg h4, if_neg h5, if_neg h6]
  · intro h
    split
    · exact ⟨_, rfl⟩
    · split
      · exact ⟨_, rfl⟩
      · split
        · exact ⟨_, rfl⟩
        · split
          · exact ⟨_, rfl⟩
          · split
            · exact ⟨_, rfl⟩
            · split
              · exact ⟨_, rfl⟩
              · rename_i h1 h2 h3 h4 h5 h6
                simp only [command_names, List.mem_cons, List.mem_singleton,
                  List.not_mem_nil, or_false] at h
                rcases h with h | h | h | h | h | h
                · exact absurd h h1
                · exact absurd h h2
                · exact absurd h h3
                · exact absurd h h4
                · exact absurd h h5
                · exact absurd h h6

set_option maxRecDepth 100000 in
theorem process_command_unknown_witness :
    ((parse_command [102, 111, 111]).1 ∉ command_names →
        process_command (2 ^ 32) boot_terminal [102, 111, 111]
          = (terminal_print (2 ^ 32) boot_terminal
              (str_unknown ++ (parse_command [102, 111, 111]).1 ++ str_hint), none))
    ∧ ((parse_command [102, 111, 111]).1 ∈ command_names →
        ∃ h, (process_command (2 ^ 32) boot_terminal [102, 111, 111]).2 = some h)
    ∧ [104, 101, 108] ∉ command_names
    ∧ [104, 101, 108, 112, 120] ∉ command_names
    ∧ [72, 101, 108, 112] ∉ command_names :=
  process_command_unknown (2 ^ 32) boot_terminal [102, 111, 111] (by decide) (by decide)

/-! ## The shell: backspace -/

theorem current_line_pred (s : Shell) (buf : Nat → Nat) (t : Terminal) (h : 0 < s.command_index) :
    current_line { s with term := t, command_buffer := buf,
                          command_index := s.command_index - 1 }
      = ((List.range s.command_index).map buf).dropLast := by
  unfold current_line
  obtain ⟨n, hn⟩ : ∃ n, s.command_index = n + 1 := ⟨s.command_index - 1, by omega⟩
  simp only [hn, Nat.add_sub_cancel, List.range_succ, List.map_append, List.map_cons,
    List.map_nil, List.dropLast_concat]

/-- The cursor movement of backspace, for a cursor inside the grid and not at
the origin: one cell back in row-major order. -/
theorem cursor_back_spec (t : Terminal) (hb : in_bounds t)
    (hnot : ¬ (t.terminal_row = 0 ∧ t.terminal_column = 0)) :
    in_bounds (cursor_back t)
    ∧ cursor_offset (cursor_back t) + 1 = cursor_offset t
    ∧ (0 < t.terminal_column → (cursor_back t).terminal_row = t.terminal_row
        ∧ (cursor_back t).terminal_column = t.terminal_column - 1)
    ∧ (t.terminal_column = 0 → (cursor_back t).terminal_row = t.terminal_row - 1
        ∧ (cursor_back t).terminal_column = 79)
    ∧ (cursor_back t).terminal_buffer = t.terminal_buffer
    ∧ (cursor_back t).terminal_color = t.terminal_color
    ∧ (cursor_back t).scroll_calls = t.scroll_calls := by
  obtain ⟨hr, hc⟩ := hb
  simp only [in_bounds, cursor_offset, VGA_HEIGHT, VGA_WIDTH] at hr hc ⊢
  unfold cursor_back
  by_cases h1 : t.terminal_column > 0
  · simp only [if_pos h1]
    refine ⟨⟨hr, by omega⟩, by omega, fun _ => by trivial, fun h => by omega, by trivial,
      by trivial, by trivial⟩
  · have h2 : t.terminal_row > 0 := by omega
    simp only [if_neg h1, if_pos h2, VGA_WIDTH]
    refine ⟨⟨by omega, by omega⟩, by omega, fun h => by omega, fun _ => by trivial,
      by trivial, by trivial, by trivial⟩

theorem collect_step_backspace_eq (sz : Nat) (s : Shell) (h : 0 < s.command_index) :
    collect_step sz s 8 =
      ({ s with
          term := { cursor_back s.term with
            terminal_buffer := write_cell (cursor_back s.term).terminal_buffer
              (cell_index sz (((cursor_back s.term).terminal_row * VGA_WIDTH
                + (cursor_back s.term).terminal_column) % sz)) (vga_entry 0x2F 32) },
          command_index := s.command_index - 1 }, false) := by
  unfold collect_step
  have h8 : ¬ ((8 : Nat) = 0) := by decide
  have h10 : ¬ ((8 : Nat) = 10) := by decide
  simp only [if_neg h8, if_neg h10, if_true, if_pos h]
  rfl

/-- C16. Backspace in the Collect step, for a cursor inside the grid and not
at (0,0): with a non-empty line the last element of the line is removed (the
length decreases by 1, the prefix stays), the cursor moves back one cell in
row-major order (to column 79 of the previous row from column 0), that cell
becomes (space, attribute 0x2F) whatever the current attribute is, and every
other cell stays; with an empty line nothing changes. -/
theorem collect_step_backspace (sz : Nat) (hsz : 65536 ≤ sz) (s : Shell)
    (hrow : s.term.terminal_row < 25) (hcol : s.term.terminal_column < 80)
    (hnot : ¬ (s.term.terminal_row = 0 ∧ s.term.terminal_column = 0)) :
    (0 < s.command_index →
      (collect_step sz s 8).1.command_index = s.command_index - 1
      ∧ current_line (collect_step sz s 8).1 = (current_line s).dropLast
      ∧ (collect_step sz s 8).1.command_buffer = s.command_buffer
      ∧ cursor_offset (collect_step sz s 8).1.term + 1 = cursor_offset s.term
      ∧ (0 < s.term.terminal_column →
          (collect_step sz s 8).1.term.terminal_row = s.term.terminal_row
          ∧ (collect_step sz s 8).1.term.terminal_column = s.term.terminal_column - 1)
      ∧ (s.term.terminal_column = 0 →
          (collect_step sz s 8).1.term.terminal_row = s.term.terminal_row - 1
          ∧ (collect_step sz s 8).1.term.terminal_column = 79)
      ∧ (collect_step sz s 8).1.term.terminal_buffer
          (cursor_offset (collect_step sz s 8).1.term) = 0x2F20
      ∧ cell_char 0x2F20 = 32 ∧ cell_attr 0x2F20 = 0x2F
      ∧ (∀ i, i ≠ cursor_offset (collect_step sz s 8).1.term →
          (collect_step sz s 8).1.term.terminal_buffer i = s.term.terminal_buffer i)
      ∧ (collect_step sz s 8).1.term.terminal_color = s.term.terminal_color
      ∧ (collect_step sz s 8).2 = false)
    ∧ (s.command_index = 0 → collect_step sz s 8 = (s, false)) := by
  constructor
  · intro h
    rw [collect_step_backspace_eq sz s h]
    obtain ⟨hb, ho, hpos, hzero, hbuf, hcolor, -⟩ :=
      cursor_back_spec s.term ⟨hrow, hcol⟩ hnot
    have hmod : cell_index sz (((cursor_back s.term).terminal_row * VGA_WIDTH
        + (cursor_back s.term).terminal_column) % sz) = cursor_offset (cursor_back s.term) := by
      obtain ⟨h1, h2⟩ := hb
      simp only [cursor_offset, VGA_HEIGHT, VGA_WIDTH] at h1 h2 ⊢
      rw [Nat.mod_eq_of_lt (by omega)]
      exact Nat.mod_eq_of_lt (by omega)
    have hcell : vga_entry 0x2F 32 = 0x2F20 := by decide
    simp only [hmod, hcell]
    refine ⟨by trivial, current_line_pred s _ _ h, by trivial, ho, hpos, hzero, ?_, by decide,
      by decide, ?_, hcolor, by trivial⟩
    · show write_cell _ _ _ _ = _
      simp only [write_cell, cursor_offset, if_true]
    · intro i hi
      show write_cell _ _ _ _ = _
      have hi2 : i ≠ cursor_offset (cursor_back s.term) := hi
      simp only [write_cell, if_neg hi2, hbuf]
  · intro h
    unfold collect_step
    have h8 : ¬ ((8 : Nat) = 0) := by decide
    have h10 : ¬ ((8 : Nat) = 10) := by decide
    have hi : ¬ (s.command_index > 0) := by omega
    simp only [if_neg h8, if_neg h10, if_true, if_neg hi]

theorem collect_step_backspace_witness :
    (0 < typing_shell.command_index →
      (collect_step (2 ^ 32) typing_shell 8).1.command_index = typing_shell.command_index - 1
      ∧ current_line (collect_step (2 ^ 32) typing_shell 8).1 = (current_line typing_shell).dropLast
      ∧ (collect_step (2 ^ 32) typing_shell 8).1.command_buffer = typing_shell.command_buffer
      ∧ cursor_offset (collect_step (2 ^ 32) typing_shell 8).1.term + 1
          = cursor_offset typing_shell.term
      ∧ (0 < typing_shell.term.terminal_column →
          (collect_step (2 ^ 32) typing_shell 8).1.term.terminal_row
            = typing_shell.term.terminal_row
          ∧ (collect_step (2 ^ 32) typing_shell 8).1.term.terminal_column
            = typing_shell.term.terminal_column - 1)
      ∧ (typing_shell.term.terminal_column = 0 →
          (collect_step (2 ^ 32) typing_shell 8).1.term.terminal_row
            = typing_shell.term.terminal_row - 1
          ∧ (collect_step (2 ^ 32) typing_shell 8).1.term.terminal_column = 79)
      ∧ (collect_step (2 ^ 32) typing_shell 8).1.term.terminal_buffer
          (cursor_offset (collect_step (2 ^ 32) typing_shell 8).1.term) = 0x2F20
      ∧ cell_char 0x2F20 = 32 ∧ cell_attr 0x2F20 = 0x2F
      ∧ (∀ i, i ≠ cursor_offset (collect_step (2 ^ 32) typing_shell 8).1.term →
          (collect_step (2 ^ 32) typing_shell 8).1.term.terminal_buffer i
            = typing_shell.term.terminal_buffer i)
      ∧ (collect_step (2 ^ 32) typing_shell 8).1.term.terminal_color
          = typing_shell.term.terminal_color
      ∧ (collect_step (2 ^ 32) typing_shell 8).2 = false)
    ∧ (typing_shell.command_index = 0 →
        collect_step (2 ^ 32) typing_shell 8 = (typing_shell, false)) :=
  collect_step_backspace (2 ^ 32) (by norm_num) typing_shell (by decide) (by decide)
    (by decide)

/-! ## The shell: the line buffer -/

theorem collect_step_printable (sz : Nat) (s : Shell) (c : Nat) (h1 : 32 ≤ c) (h2 : c ≤ 126)
    (h3 : s.command_index < 255) :
    collect_step sz s c =
      ({ s with term := terminal_putchar sz s.term c,
                command_buffer := write_cell s.command_buffer s.command_index c,
                command_index := s.command_index + 1 }, false) := by
  unfold collect_step
  have e0 : ¬ (c = 0) := by omega
  have e10 : ¬ (c = 10) := by omega
  have e8 : ¬ (c = 8) := by omega
  simp only [if_neg e0, if_neg e10, if_neg e8, if_pos (And.intro h1 (And.intro h2 h3))]

theorem collect_step_ignored (sz : Nat) (s : Shell) (c : Nat) (e10 : c ≠ 10) (e8 : c ≠ 8)
    (h : c < 32 ∨ 126 < c ∨ 255 ≤ s.command_index) :
    collect_step sz s c = (s, false) := by
  unfold collect_step
  by_cases e0 : c = 0
  · simp only [if_pos e0]
  · have hp : ¬ (32 ≤ c ∧ c ≤ 126 ∧ s.command_index < 255) := by omega
    simp only [if_neg e0, if_neg e10, if_neg e8, if_neg hp]

theorem collect_step_enter (sz : Nat) (s : Shell) :
    collect_step sz s 10 =
      ({ s with
          term := (process_command sz (terminal_putchar sz s.term 10)
            (c_string (write_cell s.command_buffer s.command_index 0))).1,
          command_buffer := write_cell s.command_buffer s.command_index 0,
          halted := decide ((process_command sz (terminal_putchar sz s.term 10)
            (c_string (write_cell s.command_buffer s.command_index 0))).2
              = some Handler.reboot) }, true) := by
  unfold collect_step
  have e0 : ¬ ((10 : Nat) = 0) := by decide
  simp only [if_neg e0, if_true]

theorem collect_step_line_ok (sz : Nat) (s : Shell) (c : Nat) (h : line_ok s) :
    line_ok (collect_step sz s c).1 := by
  obtain ⟨hlen, hel⟩ := h
  by_cases e10 : c = 10
  · subst e10
    rw [collect_step_enter]
    refine ⟨hlen, ?_⟩
    intro i hi
    have hi2 : i ≠ s.command_index := Nat.ne_of_lt hi
    show 32 ≤ write_cell _ _ _ i ∧ write_cell _ _ _ i ≤ 126
    simp only [write_cell, if_neg hi2]
    exact hel i hi
  · by_cases e8 : c = 8
    · subst e8
      by_cases hidx : 0 < s.command_index
      · rw [collect_step_backspace_eq sz s hidx]
        refine ⟨?_, ?_⟩
        · show s.command_index - 1 ≤ 255
          omega
        · intro i hi
          have hi2 : i < s.command_index - 1 := hi
          exact hel i (by omega)
      · have hz : collect_step sz s 8 = (s, false) := by
          unfold collect_step
          have h8 : ¬ ((8 : Nat) = 0) := by decide
          have h10 : ¬ ((8 : Nat) = 10) := by decide
          simp only [if_neg h8, if_neg h10, if_true, if_neg hidx]
        rw [hz]
        exact ⟨hlen, hel⟩
    · by_cases hp : 32 ≤ c ∧ c ≤ 126 ∧ s.command_index < 255
      · rw [collect_step_printable sz s c hp.1 hp.2.1 hp.2.2]
        refine ⟨?_, ?_⟩
        · show s.command_index + 1 ≤ 255
          omega
        · intro i hi
          have hi2 : i < s.command_index + 1 := hi
          show 32 ≤ write_cell _ _ _ i ∧ write_cell _ _ _ i ≤ 126
          by_cases hi3 : i = s.command_index
          · simp only [write_cell, if_pos hi3]
            exact ⟨hp.1, hp.2.1⟩
          · simp only [write_cell, if_neg hi3]
            exact hel i (by omega)
      · rw [collect_step_ignored sz s c e10 e8 (by omega)]
        exact ⟨hlen, hel⟩

theorem shell_prompt_line_ok (sz : Nat) (s : Shell) : line_ok (shell_prompt sz s) :=
  ⟨Nat.zero_le 255, fun i hi => absurd hi (Nat.not_lt_zero i)⟩

theorem shell_feed_line_ok (sz : Nat) (s : Shell) (c : Nat) (h : line_ok s) :
    line_ok (shell_feed sz s c) := by
  unfold shell_feed
  by_cases hh : s.halted = true
  · rw [if_pos hh]
    exact h
  · rw [if_neg hh]
    simp only []
    split
    · exact shell_prompt_line_ok sz _
    · exact collect_step_line_ok sz s c h

theorem shell_run_line_ok (sz : Nat) (cs : List Nat) (s : Shell) (h : line_ok s) :
    line_ok (shell_run sz s cs) := by
  induction cs generalizing s with
  | nil => exact h
  | cons c rest ih => exact ih _ (shell_feed_line_ok sz s c h)

/-- C17. Line buffer invariant: from the empty buffer of a new prompt, after
every finite sequence of decoded characters the length of the line is at most
255 and every stored byte is printable, in [32,126]. A printable byte is
appended and echoed while the length is below 255; at length 255 a printable
byte, and at any length a byte that is neither printable nor Enter nor
Backspace (tab for one), changes neither the buffer nor the display. -/
theorem line_buffer_invariant (sz : Nat) (s0 : Shell) (cs : List Nat) :
    (shell_prompt sz s0).command_index = 0
    ∧ (shell_run sz (shell_prompt sz s0) cs).command_index ≤ 255
    ∧ (∀ i, i < (shell_run sz (shell_prompt sz s0) cs).command_index →
        32 ≤ (shell_run sz (shell_prompt sz s0) cs).command_buffer i
        ∧ (shell_run sz (shell_prompt sz s0) cs).command_buffer i ≤ 126)
    ∧ (∀ (s : Shell) (c : Nat), 32 ≤ c → c ≤ 126 → s.command_index < 255 →
        collect_step sz s c =
          ({ s with term := terminal_putchar sz s.term c,
                    command_buffer := write_cell s.command_buffer s.command_index c,
                    command_index := s.command_index + 1 }, false))
    ∧ (∀ (s : Shell) (c : Nat), 32 ≤ c → c ≤ 126 → 255 ≤ s.command_index →
        collect_step sz s c = (s, false))
    ∧ (∀ (s : Shell) (c : Nat), c ≠ 10 → c ≠ 8 → (c < 32 ∨ 126 < c) →
        collect_step sz s c = (s, false))
    ∧ collect_step sz s0 9 = (s0, false) := by
  obtain ⟨h1, h2⟩ := shell_run_line_ok sz cs _ (shell_prompt_line_ok sz s0)
  refine ⟨rfl, h1, h2, ?_, ?_, ?_, ?_⟩
  · intro s c a b d
    exact collect_step_printable sz s c a b d
  · intro s c a b d
    exact collect_step_ignored sz s c (by omega) (by omega) (Or.inr (Or.inr d))
  · intro s c a b d
    exact collect_step_ignored sz s c a b (by omega)
  · exact collect_step_ignored sz s0 9 (by decide) (by decide) (Or.inl (by decide))

/-! ## The shell: the cursor while a line is edited -/

/-- The state right after the prompt is printed: the cursor is (20, 2), the
line is empty, nothing has scrolled and the attribute is the one before. -/
theorem shell_prompt_term (sz : Nat) (hsz : 65536 ≤ sz) (s : Shell) :
    (shell_prompt sz s).term.terminal_row = 20
    ∧ (shell_prompt sz s).term.terminal_column = 2
    ∧ (shell_prompt sz s).command_index = 0
    ∧ (shell_prompt sz s).term.scroll_calls = s.term.scroll_calls
    ∧ (shell_prompt sz s).term.terminal_color = s.term.terminal_color
    ∧ (shell_prompt sz s).halted = s.halted := by
  have hb : in_bounds { s.term with terminal_row := 20, terminal_column := 0 } := by
    simp only [in_bounds, VGA_HEIGHT, VGA_WIDTH]
    omega
  obtain ⟨⟨h1, h2⟩, h3, h4, -⟩ := terminal_print_no_scroll sz hsz str_dollar _ hb
    (by decide) (by
      simp only [cursor_offset, VGA_WIDTH, str_dollar, List.length_cons, List.length_nil]
      omega)
  simp only [cursor_offset, VGA_HEIGHT, VGA_WIDTH, str_dollar, List.length_cons,
    List.length_nil] at h1 h2 h3
  have hc := terminal_print_color sz str_dollar
    { s.term with terminal_row := 20, terminal_column := 0 }
  refine ⟨?_, ?_, rfl, h4, hc, rfl⟩
  · show (terminal_print sz _ str_dollar).terminal_row = 20
    simp only [str_dollar]
    omega
  · show (terminal_print sz _ str_dollar).terminal_column = 2
    simp only [str_dollar]
    omega

theorem shell_prompt_editing (sz : Nat) (hsz : 65536 ≤ sz) (s : Shell) :
    editing (shell_prompt sz s) (shell_prompt sz s) := by
  obtain ⟨h1, h2, h3, -, -, -⟩ := shell_prompt_term sz hsz s
  refine ⟨?_, ?_, shell_prompt_line_ok sz s, rfl, rfl, rfl, fun _ => h3, ?_⟩
  · simp only [in_bounds, h1, h2, VGA_HEIGHT, VGA_WIDTH]
    omega
  · simp only [cursor_offset, h1, h2, h3, VGA_WIDTH]
  · intro k hk
    rw [h3] at hk
    exact absurd hk (Nat.not_lt_zero k)

theorem collect_step_editing (sz : Nat) (hsz : 65536 ≤ sz) (base s : Shell) (c : Nat)
    (hc : c ≠ 10) (hs : s.halted = false) (h : editing base s) :
    editing base (collect_step sz s c).1 ∧ (collect_step sz s c).2 = false := by
  obtain ⟨hb, ho, hline, hscroll, hcolor, hhalt, hhz, hecho⟩ := h
  by_cases e8 : c = 8
  · subst e8
    by_cases hidx : 0 < s.command_index
    · have hnot : ¬ (s.term.terminal_row = 0 ∧ s.term.terminal_column = 0) := by
        intro hz
        simp only [cursor_offset, hz.1, hz.2, VGA_WIDTH] at ho
        omega
      obtain ⟨hb1, ho1, -, -, hbuf1, hcolor1, hscroll1⟩ := cursor_back_spec s.term hb hnot
      have hmod : cell_index sz (((cursor_back s.term).terminal_row * VGA_WIDTH
          + (cursor_back s.term).terminal_column) % sz)
            = cursor_offset (cursor_back s.term) := by
        obtain ⟨h1, h2⟩ := hb1
        simp only [cursor_offset, VGA_HEIGHT, VGA_WIDTH] at h1 h2 ⊢
        rw [Nat.mod_eq_of_lt (by omega)]
        exact Nat.mod_eq_of_lt (by omega)
      rw [collect_step_backspace_eq sz s hidx]
      simp only [hmod]
      have hline1 := collect_step_line_ok sz s 8 hline
      rw [collect_step_backspace_eq sz s hidx] at hline1
      refine ⟨⟨hb1, ?_, hline1, ?_, ?_, hhalt, ?_, ?_⟩, by trivial⟩
      · show cursor_offset (cursor_back s.term) = 1602 + (s.command_index - 1)
        omega
      · show (cursor_back s.term).scroll_calls = _
        rw [hscroll1, hscroll]
      · show (cursor_back s.term).terminal_color = _
        rw [hcolor1, hcolor]
      · intro hh
        rw [hhalt] at hs
        have hh2 : base.halted = true := by rw [← hhalt]; exact hh
        rw [hh2] at hs
        cases hs
      · intro k hk
        have hk2 : k < s.command_index - 1 := hk
        show write_cell (cursor_back s.term).terminal_buffer _ _ (1602 + k)
          = vga_entry (cursor_back s.term).terminal_color (s.command_buffer k)
        have hne : 1602 + k ≠ cursor_offset (cursor_back s.term) := by omega
        simp only [write_cell, if_neg hne, hbuf1, hcolor1]
        exact hecho k (by omega)
    · have hz : collect_step sz s 8 = (s, false) := by
        unfold collect_step
        have h8 : ¬ ((8 : Nat) = 0) := by decide
        have h10 : ¬ ((8 : Nat) = 10) := by decide
        simp only [if_neg h8, if_neg h10, if_true, if_neg hidx]
      rw [hz]
      exact ⟨⟨hb, ho, hline, hscroll, hcolor, hhalt, hhz, hecho⟩, rfl⟩
  · by_cases hp : 32 ≤ c ∧ c ≤ 126 ∧ s.command_index < 255
    · have hline1 := collect_step_line_ok sz s c hline
      rw [collect_step_printable sz s c hp.1 hp.2.1 hp.2.2] at hline1 ⊢
      obtain ⟨hb1, ho1, hcolor1, hscroll1, hbuf1⟩ :=
        terminal_putchar_step sz s.term c hsz hb hc (by omega)
      refine ⟨⟨hb1, ?_, hline1, ?_, ?_, hhalt, ?_, ?_⟩, by trivial⟩
      · show cursor_offset (terminal_putchar sz s.term c) = 1602 + (s.command_index + 1)
        omega
      · show (terminal_putchar sz s.term c).scroll_calls = _
        rw [hscroll1, hscroll]
      · show (terminal_putchar sz s.term c).terminal_color = _
        rw [hcolor1, hcolor]
      · intro hh
        have hh2 : s.halted = true := hh
        rw [hs] at hh2
        cases hh2
      · intro k hk
        have hk2 : k < s.command_index + 1 := hk
        show (terminal_putchar sz s.term c).terminal_buffer (1602 + k)
          = vga_entry (terminal_putchar sz s.term c).terminal_color
              (write_cell s.command_buffer s.command_index c k)
        rw [hbuf1, hcolor1, ho]
        by_cases hk3 : k = s.command_index
        · subst hk3
          simp only [write_cell, if_true]
        · have hne : 1602 + k ≠ 1602 + s.command_index := by omega
          simp only [write_cell, if_neg hne, if_neg hk3]
          exact hecho k (by omega)
    · rw [collect_step_ignored sz s c hc e8 (by omega)]
      exact ⟨⟨hb, ho, hline, hscroll, hcolor, hhalt, hhz, hecho⟩, rfl⟩

theorem shell_feed_editing (sz : Nat) (hsz : 65536 ≤ sz) (base s : Shell) (c : Nat)
    (hc : c ≠ 10) (h : editing base s) : editing base (shell_feed sz s c) := by
  unfold shell_feed
  by_cases hh : s.halted = true
  · rw [if_pos hh]
    exact h
  · rw [if_neg hh]
    have hs : s.halted = false := by
      cases hv : s.halted
      · rfl
      · exact absurd hv hh
    obtain ⟨h1, h2⟩ := collect_step_editing sz hsz base s c hc hs h
    simp only [h2]
    rw [if_neg (by simp)]
    exact h1

theorem shell_run_editing (sz : Nat) (hsz : 65536 ≤ sz) (base : Shell) (cs : List Nat)
    (s : Shell) (hno : ∀ c ∈ cs, c ≠ 10) (h : editing base s) :
    editing base (shell_run sz s cs) := by
  induction cs generalizing s with
  | nil => exact h
  | cons c rest ih =>
    exact ih _ (fun x hx => hno x (List.mem_cons_of_mem c hx))
      (shell_feed_editing sz hsz base s c (hno c (List.mem_cons_self c rest)) h)

/-- C19. Collect-step cursor invariant: right after the prompt is printed the
cursor is (20, 2) and the line is empty; after every finite sequence of decoded
characters without Enter the linear cursor offset row·80 + column is 1602 plus
the length of the line, the cursor is on rows 20..23, `terminal_scroll` has not
been called, every byte of the line is on the display at offset 1602 plus its
index, and a backspace blanks exactly the cell of the byte it removes. -/
theorem collect_cursor_invariant (sz : Nat) (hsz : 65536 ≤ sz) (s0 : Shell)
    (cs : List Nat) (hno : ∀ c ∈ cs, c ≠ 10) :
    ((shell_prompt sz s0).term.terminal_row = 20
      ∧ (shell_prompt sz s0).term.terminal_column = 2
      ∧ (shell_prompt sz s0).command_index = 0)
    ∧ (shell_run sz (shell_prompt sz s0) cs).term.terminal_row * 80
        + (shell_run sz (shell_prompt sz s0) cs).term.terminal_column
        = 1602 + (shell_run sz (shell_prompt sz s0) cs).command_index
    ∧ 20 ≤ (shell_run sz (shell_prompt sz s0) cs).term.terminal_row
    ∧ (shell_run sz (shell_prompt sz s0) cs).term.terminal_row ≤ 23
    ∧ (shell_run sz (shell_prompt sz s0) cs).term.terminal_column < 80
    ∧ (shell_run sz (shell_prompt sz s0) cs).term.scroll_calls
        = (shell_prompt sz s0).term.scroll_calls
    ∧ (∀ k, k < (shell_run sz (shell_prompt sz s0) cs).command_index →
        cell_char ((shell_run sz (shell_prompt sz s0) cs).term.terminal_buffer (1602 + k))
          = (shell_run sz (shell_prompt sz s0) cs).command_buffer k)
    ∧ (0 < (shell_run sz (shell_prompt sz s0) cs).command_index →
        (shell_feed sz (shell_run sz (shell_prompt sz s0) cs) 8).command_index
          = (shell_run sz (shell_prompt sz s0) cs).command_index - 1
        ∧ (shell_feed sz (shell_run sz (shell_prompt sz s0) cs) 8).term.terminal_buffer
            (1602 + ((shell_run sz (shell_prompt sz s0) cs).command_index - 1)) = 0x2F20
        ∧ ∀ i, i ≠ 1602 + ((shell_run sz (shell_prompt sz s0) cs).command_index - 1) →
            (shell_feed sz (shell_run sz (shell_prompt sz s0) cs) 8).term.terminal_buffer i
              = (shell_run sz (shell_prompt sz s0) cs).term.terminal_buffer i) := by
  obtain ⟨p1, p2, p3, -, -, -⟩ := shell_prompt_term sz hsz s0
  have hK := shell_run_editing sz hsz (shell_prompt sz s0) cs (shell_prompt sz s0) hno
    (shell_prompt_editing sz hsz s0)
  generalize shell_run sz (shell_prompt sz s0) cs = s at hK ⊢
  obtain ⟨hb, ho, hline, hscroll, hcolor, hhalt, hhz, hecho⟩ := hK
  obtain ⟨hr, hc⟩ := id hb
  simp only [cursor_offset, VGA_HEIGHT, VGA_WIDTH] at ho hr hc
  obtain ⟨hlen, hel⟩ := hline
  refine ⟨⟨p1, p2, p3⟩, ho, by omega, by omega, hc, hscroll, ?_, ?_⟩
  · intro k hk
    rw [hecho k hk]
    exact cell_char_vga_entry _ _ (by have := (hel k hk).2; omega)
  · intro hidx
    have hs : s.halted = false := by
      cases hv : s.halted
      · rfl
      · have := hhz hv
        omega
    have hfeed : shell_feed sz s 8 = (collect_step sz s 8).1 := by
      unfold shell_feed
      rw [if_neg (by rw [hs]; decide)]
      have h2 : (collect_step sz s 8).2 = false := by
        rw [collect_step_backspace_eq sz s hidx]
      simp only [h2]
      rw [if_neg (by simp)]
    have hnot : ¬ (s.term.terminal_row = 0 ∧ s.term.terminal_column = 0) := by
      intro hz
      omega
    obtain ⟨hb1, ho1, -, -, hbuf1, -, -⟩ := cursor_back_spec s.term hb hnot
    have hoff : cursor_offset (cursor_back s.term) = 1602 + (s.command_index - 1) := by
      simp only [cursor_offset, VGA_WIDTH] at ho1 ⊢
      omega
    have hmod : cell_index sz (((cursor_back s.term).terminal_row * VGA_WIDTH
        + (cursor_back s.term).terminal_column) % sz)
          = 1602 + (s.command_index - 1) := by
      rw [← hoff]
      obtain ⟨h1, h2⟩ := hb1
      simp only [cursor_offset, VGA_HEIGHT, VGA_WIDTH] at h1 h2 ⊢
      rw [Nat.mod_eq_of_lt (by omega)]
      exact Nat.mod_eq_of_lt (by omega)
    have hcell : vga_entry 0x2F 32 = 0x2F20 := by decide
    rw [hfeed, collect_step_backspace_eq sz s hidx]
    simp only [hmod, hcell]
    refine ⟨by trivial, ?_, ?_⟩
    · show write_cell _ _ _ _ = _
      simp only [write_cell, if_true]
    · intro i hi
      show write_cell _ _ _ _ = _
      simp only [write_cell, if_neg hi, hbuf1]

theorem collect_cursor_invariant_witness :
    ((shell_prompt (2 ^ 32) typing_shell).term.terminal_row = 20
      ∧ (shell_prompt (2 ^ 32) typing_shell).term.terminal_column = 2
      ∧ (shell_prompt (2 ^ 32) typing_shell).command_index = 0)
    ∧ (shell_run (2 ^ 32) (shell_prompt (2 ^ 32) typing_shell) [104, 105, 8, 9, 106]).term.terminal_row * 80
        + (shell_run (2 ^ 32) (shell_prompt (2 ^ 32) typing_shell) [104, 105, 8, 9, 106]).term.terminal_column
        = 1602 + (shell_run (2 ^ 32) (shell_prompt (2 ^ 32) typing_shell) [104, 105, 8, 9, 106]).command_index
    ∧ 20 ≤ (shell_run (2 ^ 32) (shell_prompt (2 ^ 32) typing_shell) [104, 105, 8, 9, 106]).term.terminal_row
    ∧ (shell_run (2 ^ 32) (shell_prompt (2 ^ 32) typing_shell) [104, 105, 8, 9, 106]).term.terminal_row ≤ 23
    ∧ (shell_run (2 ^ 32) (shell_prompt (2 ^ 32) typing_shell) [104, 105, 8, 9, 106]).term.terminal_column < 80
    ∧ (shell_run (2 ^ 32) (shell_prompt (2 ^ 32) typing_shell) [104, 105, 8, 9, 106]).term.scroll_calls
        = (shell_prompt (2 ^ 32) typing_shell).term.scroll_calls
    ∧ (∀ k, k < (shell_run (2 ^ 32) (shell_prompt (2 ^ 32) typing_shell) [104, 105, 8, 9, 106]).command_index →
        cell_char ((shell_run (2 ^ 32) (shell_prompt (2 ^ 32) typing_shell) [104, 105, 8, 9, 106]).term.terminal_buffer (1602 + k))
          = (shell_run (2 ^ 32) (shell_prompt (2 ^ 32) typing_shell) [104, 105, 8, 9, 106]).command_buffer k)
    ∧ (0 < (shell_run (2 ^ 32) (shell_prompt (2 ^ 32) typing_shell) [104, 105, 8, 9, 106]).command_index →
        (shell_feed (2 ^ 32) (shell_run (2 ^ 32) (shell_prompt (2 ^ 32) typing_shell) [104, 105, 8, 9, 106]) 8).command_index
          = (shell_run (2 ^ 32) (shell_prompt (2 ^ 32) typing_shell) [104, 105, 8, 9, 106]).command_index - 1
        ∧ (shell_feed (2 ^ 32) (shell_run (2 ^ 32) (shell_prompt (2 ^ 32) typing_shell) [104, 105, 8, 9, 106]) 8).term.terminal_buffer
            (1602 + ((shell_run (2 ^ 32) (shell_prompt (2 ^ 32) typing_shell) [104, 105, 8, 9, 106]).command_index - 1)) = 0x2F20
        ∧ ∀ i, i ≠ 1602 + ((shell_run (2 ^ 32) (shell_prompt (2 ^ 32) typing_shell) [104, 105, 8, 9, 106]).command_index - 1) →
            (shell_feed (2 ^ 32) (shell_run (2 ^ 32) (shell_prompt (2 ^ 32) typing_shell) [104, 105, 8, 9, 106]) 8).term.terminal_buffer i
              = (shell_run (2 ^ 32) (shell_prompt (2 ^ 32) typing_shell) [104, 105, 8, 9, 106]).term.terminal_buffer i) :=
  collect_cursor_invariant (2 ^ 32) (by norm_num) typing_shell [104, 105, 8, 9, 106]
    (by decide)

/-! ## `cmd_help` -/

theorem print_at_spec (sz : Nat) (hsz : 65536 ≤ sz) (t : Terminal) (r c : Nat)
    (data : List Nat) (hr : r < 25) (hc : c + data.length < 80) (hnl : ∀ x ∈ data, x ≠ 10) :
    (print_at sz t r c data).terminal_color = t.terminal_color
    ∧ (print_at sz t r c data).scroll_calls = t.scroll_calls
    ∧ ∀ i, (print_at sz t r c data).terminal_buffer i
        = if r * 80 + c ≤ i ∧ i < r * 80 + c + data.length then
            vga_entry t.terminal_color (data.getD (i - (r * 80 + c)) 0)
          else t.terminal_buffer i := by
  unfold print_at
  have hb : in_bounds { t with terminal_row := r, terminal_column := c } := by
    simp only [in_bounds, VGA_HEIGHT, VGA_WIDTH]
    omega
  obtain ⟨-, -, h3, h4⟩ := terminal_print_no_scroll sz hsz data _ hb hnl (by
    simp only [cursor_offset, VGA_WIDTH]
    omega)
  refine ⟨terminal_print_color sz data _, h3, ?_⟩
  intro i
  rw [h4 i]
  simp only [cursor_offset, VGA_WIDTH]

theorem print_centered_eq_print_at (sz : Nat) (hsz : 65536 ≤ sz) (t : Terminal)
    (text : List Nat) (row : Nat) (hlen : text.length ≤ 80) :
    print_centered sz t text row = print_at sz t row ((80 - text.length) / 2) text := by
  unfold print_centered print_at strlen
  simp only [centered_start_of_le sz text.length hsz hlen]

theorem print_at_color (sz : Nat) (t : Terminal) (r c : Nat) (data : List Nat) :
    (print_at sz t r c data).terminal_color = t.terminal_color :=
  terminal_print_color sz data _

theorem set_fullscreen_green_color (t : Terminal) :
    (set_fullscreen_green t).terminal_color = t.terminal_color := rfl

theorem cmd_help_eq (sz : Nat) (hsz : 65536 ≤ sz) (t : Terminal) :
    cmd_help sz t =
      { print_at sz (print_at sz (print_at sz (print_at sz (print_at sz (print_at sz
          (print_at sz (set_fullscreen_green t) 8 32 str_help_header)
          10 20 str_help_help) 11 20 str_help_clear) 12 20 str_help_echo)
          13 20 str_help_uptime) 14 20 str_help_version) 15 20 str_help_reboot
        with terminal_row := 20, terminal_column := 0 } := by
  have h := print_centered_eq_print_at sz hsz (set_fullscreen_green t) str_help_header 8
    (by decide)
  unfold cmd_help
  simp only [h]
  rfl

/-- The grid and the memory behind it after `cmd_help`, cell by cell. -/
theorem cmd_help_buffer (sz : Nat) (hsz : 65536 ≤ sz) (t : Terminal) (i : Nat) :
    (cmd_help sz t).terminal_buffer i =
      if 1220 ≤ i ∧ i < 1220 + 28 then vga_entry t.terminal_color (str_help_reboot.getD (i - 1220) 0)
      else
      if 1140 ≤ i ∧ i < 1140 + 25 then vga_entry t.terminal_color (str_help_version.getD (i - 1140) 0)
      else
      if 1060 ≤ i ∧ i < 1060 + 28 then vga_entry t.terminal_color (str_help_uptime.getD (i - 1060) 0)
      else
      if 980 ≤ i ∧ i < 980 + 24 then vga_entry t.terminal_color (str_help_echo.getD (i - 980) 0)
      else
      if 900 ≤ i ∧ i < 900 + 26 then vga_entry t.terminal_color (str_help_clear.getD (i - 900) 0)
      else
      if 820 ≤ i ∧ i < 820 + 32 then vga_entry t.terminal_color (str_help_help.getD (i - 820) 0)
      else
      if 672 ≤ i ∧ i < 672 + 15 then vga_entry t.terminal_color (str_help_header.getD (i - 672) 0)
      else if i < 2000 then vga_entry 0x2F 32 else t.terminal_buffer i := by
  rw [cmd_help_eq sz hsz t]
  show (print_at sz _ 15 20 str_help_reboot).terminal_buffer i = _
  rw [(print_at_spec sz hsz _ 15 20 str_help_reboot (by decide) (by decide) (by decide)).2.2]
  rw [(print_at_spec sz hsz _ 14 20 str_help_version (by decide) (by decide) (by decide)).2.2]
  rw [(print_at_spec sz hsz _ 13 20 str_help_uptime (by decide) (by decide) (by decide)).2.2]
  rw [(print_at_spec sz hsz _ 12 20 str_help_echo (by decide) (by decide) (by decide)).2.2]
  rw [(print_at_spec sz hsz _ 11 20 str_help_clear (by decide) (by decide) (by decide)).2.2]
  rw [(print_at_spec sz hsz _ 10 20 str_help_help (by decide) (by decide) (by decide)).2.2]
  rw [(print_at_spec sz hsz _ 8 32 str_help_header (by decide) (by decide) (by decide)).2.2]
  rw [set_fullscreen_green_buffer]
  simp only [print_at_color, set_fullscreen_green_color]
  rfl

/-- C18, amended. `cmd_help` repaints the whole surface with (space, 0x2F),
prints the header "NixOS Commands:" centered on row 8 (from column 32), prints
exactly six left-aligned command descriptions, on rows 10 to 15 from column 20,
and leaves the cursor at row 20, column 0; `process_command("help")` calls
it. -/
theorem cmd_help_screen (sz : Nat) (hsz : 65536 ≤ sz) (t : Terminal) :
    (∀ j, j < str_help_header.length →
        (cmd_help sz t).terminal_buffer (8 * 80 + (80 - str_help_header.length) / 2 + j)
          = vga_entry t.terminal_color (str_help_header.getD j 0))
    ∧ help_descriptions.length = 6
    ∧ (∀ k j, k < 6 → j < (help_descriptions.getD k []).length →
        (cmd_help sz t).terminal_buffer ((10 + k) * 80 + 20 + j)
          = vga_entry t.terminal_color ((help_descriptions.getD k []).getD j 0))
    ∧ (∀ i, i < 2000 → ¬ (8 * 80 + 32 ≤ i ∧ i < 8 * 80 + 32 + str_help_header.length) →
        (∀ k, k < 6 → ¬ ((10 + k) * 80 + 20 ≤ i
            ∧ i < (10 + k) * 80 + 20 + (help_descriptions.getD k []).length)) →
        (cmd_help sz t).terminal_buffer i = vga_entry 0x2F 32)
    ∧ (cmd_help sz t).terminal_row = 20
    ∧ (cmd_help sz t).terminal_column = 0
    ∧ (cmd_help sz t).terminal_color = t.terminal_color
    ∧ process_command sz t name_help = (cmd_help sz t, some Handler.help) := by
  have hcolor : (cmd_help sz t).terminal_color = t.terminal_color := by
    rw [cmd_help_eq sz hsz t]
    show (print_at sz _ 15 20 str_help_reboot).terminal_color = _
    simp only [print_at_color, set_fullscreen_green_color]
  have hrow : (cmd_help sz t).terminal_row = 20 := by rw [cmd_help_eq sz hsz t]
  have hcol : (cmd_help sz t).terminal_column = 0 := by rw [cmd_help_eq sz hsz t]
  have hheader : str_help_header.length = 15 := rfl
  have hd0 : help_descriptions.getD 0 [] = str_help_help := rfl
  have hl0 : str_help_help.length = 32 := rfl
  have hd1 : help_descriptions.getD 1 [] = str_help_clear := rfl
  have hl1 : str_help_clear.length = 26 := rfl
  have hd2 : help_descriptions.getD 2 [] = str_help_echo := rfl
  have hl2 : str_help_echo.length = 24 := rfl
  have hd3 : help_descriptions.getD 3 [] = str_help_uptime := rfl
  have hl3 : str_help_uptime.length = 28 := rfl
  have hd4 : help_descriptions.getD 4 [] = str_help_version := rfl
  have hl4 : str_help_version.length = 25 := rfl
  have hd5 : help_descriptions.getD 5 [] = str_help_reboot := rfl
  have hl5 : str_help_reboot.length = 28 := rfl
  refine ⟨?_, rfl, ?_, ?_, hrow, hcol, hcolor, rfl⟩
  · intro j hj
    rw [hheader] at hj
    rw [cmd_help_buffer sz hsz t, hheader, if_neg (by omega), if_neg (by omega), if_neg (by omega), if_neg (by omega), if_neg (by omega), if_neg (by omega), if_pos (by omega)]
    exact congrArg (fun n => vga_entry t.terminal_color (str_help_header.getD n 0)) (by omega)
  · intro k j hk hj
    interval_cases k
    · rw [hd0] at hj ⊢
      rw [hl0] at hj
      rw [cmd_help_buffer sz hsz t, if_neg (by omega), if_neg (by omega), if_neg (by omega), if_neg (by omega), if_neg (by omega), if_pos (by omega)]
      exact congrArg (fun n => vga_entry t.terminal_color (str_help_help.getD n 0)) (by omega)
    · rw [hd1] at hj ⊢
      rw [hl1] at hj
      rw [cmd_help_buffer sz hsz t, if_neg (by omega), if_neg (by omega), if_neg (by omega), if_neg (by omega), if_pos (by omega)]
      exact congrArg (fun n => vga_entry t.terminal_color (str_help_clear.getD n 0)) (by omega)
    · rw [hd2] at hj ⊢
      rw [hl2] at hj
      rw [cmd_help_buffer sz hsz t, if_neg (by omega), if_neg (by omega), if_neg (by omega), if_pos (by omega)]
      exact congrArg (fun n => vga_entry t.terminal_color (str_help_echo.getD n 0)) (by omega)
    · rw [hd3] at hj ⊢
      rw [hl3] at hj
      rw [cmd_help_buffer sz hsz t, if_neg (by omega), if_neg (by omega), if_pos (by omega)]
      exact congrArg (fun n => vga_entry t.terminal_color (str_help_uptime.getD n 0)) (by omega)
    · rw [hd4] at hj ⊢
      rw [hl4] at hj
      rw [cmd_help_buffer sz hsz t, if_neg (by omega), if_pos (by omega)]
      exact congrArg (fun n => vga_entry t.terminal_color (str_help_version.getD n 0)) (by omega)
    · rw [hd5] at hj ⊢
      rw [hl5] at hj
      rw [cmd_help_buffer sz hsz t, if_pos (by omega)]
      exact congrArg (fun n => vga_entry t.terminal_color (str_help_reboot.getD n 0)) (by omega)
  · intro i hi hh hd
    rw [hheader] at hh
    have g0 := hd 0 (by omega)
    rw [hd0, hl0] at g0
    have g1 := hd 1 (by omega)
    rw [hd1, hl1] at g1
    have g2 := hd 2 (by omega)
    rw [hd2, hl2] at g2
    have g3 := hd 3 (by omega)
    rw [hd3, hl3] at g3
    have g4 := hd 4 (by omega)
    rw [hd4, hl4] at g4
    have g5 := hd 5 (by omega)
    rw [hd5, hl5] at g5
    rw [cmd_help_buffer sz hsz t, if_neg (by omega), if_neg (by omega), if_neg (by omega), if_neg (by omega), if_neg (by omega), if_neg (by omega), if_neg (by omega), if_pos hi]

set_option maxRecDepth 100000 in
/-- C18 as stated fails on the number of descriptions: after `cmd_help` each of
the six rows 10 to 15 starts, at column 20, with the first letter of a command
name (h, c, e, u, v, r); the sixth, on row 15, is the description of
`reboot`. -/
theorem cmd_help_screen_counterexample :
    cell_char ((cmd_help (2 ^ 32) boot_terminal).terminal_buffer (10 * 80 + 20)) = 104
    ∧ cell_char ((cmd_help (2 ^ 32) boot_terminal).terminal_buffer (11 * 80 + 20)) = 99
    ∧ cell_char ((cmd_help (2 ^ 32) boot_terminal).terminal_buffer (12 * 80 + 20)) = 101
    ∧ cell_char ((cmd_help (2 ^ 32) boot_terminal).terminal_buffer (13 * 80 + 20)) = 117
    ∧ cell_char ((cmd_help (2 ^ 32) boot_terminal).terminal_buffer (14 * 80 + 20)) = 118
    ∧ cell_char ((cmd_help (2 ^ 32) boot_terminal).terminal_buffer (15 * 80 + 20)) = 114
    ∧ (process_command (2 ^ 32) boot_terminal name_help).1 = cmd_help (2 ^ 32) boot_terminal
    ∧ ¬ (help_descriptions.length = 5) := by
  refine ⟨by decide, by decide, by decide, by decide, by decide, by decide, rfl, by decide⟩

theorem cmd_help_screen_witness :
    (∀ j, j < str_help_header.length →
        (cmd_help (2 ^ 32) boot_terminal).terminal_buffer
            (8 * 80 + (80 - str_help_header.length) / 2 + j)
          = vga_entry boot_terminal.terminal_color (str_help_header.getD j 0))
    ∧ help_descriptions.length = 6
    ∧ (∀ k j, k < 6 → j < (help_descriptions.getD k []).length →
        (cmd_help (2 ^ 32) boot_terminal).terminal_buffer ((10 + k) * 80 + 20 + j)
          = vga_entry boot_terminal.terminal_color ((help_descriptions.getD k []).getD j 0))
    ∧ (∀ i, i < 2000 → ¬ (8 * 80 + 32 ≤ i ∧ i < 8 * 80 + 32 + str_help_header.length) →
        (∀ k, k < 6 → ¬ ((10 + k) * 80 + 20 ≤ i
            ∧ i < (10 + k) * 80 + 20 + (help_descriptions.getD k []).length)) →
        (cmd_help (2 ^ 32) boot_terminal).terminal_buffer i = vga_entry 0x2F 32)
    ∧ (cmd_help (2 ^ 32) boot_terminal).terminal_row = 20
    ∧ (cmd_help (2 ^ 32) boot_terminal).terminal_column = 0
    ∧ (cmd_help (2 ^ 32) boot_terminal).terminal_color = boot_terminal.terminal_color
    ∧ process_command (2 ^ 32) boot_terminal name_help
        = (cmd_help (2 ^ 32) boot_terminal, some Handler.help) :=
  cmd_help_screen (2 ^ 32) (by norm_num) boot_terminal


/-! ## The attribute -/

theorem print_centered_color (sz : Nat) (t : Terminal) (text : List Nat) (row : Nat) :
    (print_centered sz t text row).terminal_color = t.terminal_color := by
  unfold print_centered
  rw [terminal_print_color]

theorem cmd_help_color (sz : Nat) (t : Terminal) :
    (cmd_help sz t).terminal_color = t.terminal_color := by
  unfold cmd_help
  simp only [terminal_print_color, print_centered_color, set_fullscreen_green_color]

theorem cmd_echo_color (sz : Nat) (t : Terminal) (args : List Nat) :
    (cmd_echo sz t args).terminal_color = t.terminal_color := by
  unfold cmd_echo
  split
  · simp only [print_centered_color, set_fullscreen_green_color]
  · rfl

theorem cmd_uptime_color (sz : Nat) (t : Terminal) :
    (cmd_uptime sz t).terminal_color = t.terminal_color := by
  unfold cmd_uptime
  simp only [print_centered_color, set_fullscreen_green_color]

theorem cmd_version_color (sz : Nat) (t : Terminal) :
    (cmd_version sz t).terminal_color = t.terminal_color := by
  unfold cmd_version
  simp only [print_centered_color, set_fullscreen_green_color]

theorem cmd_reboot_color (sz : Nat) (t : Terminal) :
    (cmd_reboot sz t).terminal_color = t.terminal_color := by
  unfold cmd_reboot
  simp only [print_centered_color, set_fullscreen_green_color]

theorem process_command_color (sz : Nat) (t : Terminal) (cmd : List Nat) :
    (process_command sz t cmd).1.terminal_color = t.terminal_color := by
  unfold process_command
  split
  · rfl
  · simp only []
    split
    · exact cmd_help_color sz t
    · split
      · rfl
      · split
        · exact cmd_echo_color sz t _
        · split
          · exact cmd_uptime_color sz t
          · split
            · exact cmd_version_color sz t
            · split
              · exact cmd_reboot_color sz t
              · simp only [terminal_print_color]

theorem cursor_back_color (t : Terminal) :
    (cursor_back t).terminal_color = t.terminal_color := by
  unfold cursor_back
  split
  · rfl
  · split <;> rfl

theorem collect_step_color (sz : Nat) (s : Shell) (c : Nat) :
    (collect_step sz s c).1.term.terminal_color = s.term.terminal_color := by
  unfold collect_step
  split
  · rfl
  · split
    · simp only [process_command_color, terminal_putchar_color]
    · split
      · split
        · exact cursor_back_color s.term
        · rfl
      · split
        · exact terminal_putchar_color sz s.term c
        · rfl

theorem shell_prompt_color (sz : Nat) (s : Shell) :
    (shell_prompt sz s).term.terminal_color = s.term.terminal_color := by
  unfold shell_prompt
  simp only [terminal_print_color]

/-! ### The attributes on the grid -/

theorem write_cell_attrs (buf : Nat → Nat) (index value : Nat) (h : grid_attrs_ok buf)
    (hv : cell_attr value = 0x07 ∨ cell_attr value = 0x2F) :
    grid_attrs_ok (write_cell buf index value) := by
  intro i hi
  unfold write_cell
  split
  · exact hv
  · exact h i hi

theorem terminal_scroll_attrs (t : Terminal) (h : attr_inv t) :
    attr_inv (terminal_scroll t) := by
  obtain ⟨hc, hP⟩ := h
  refine ⟨hc, ?_⟩
  intro i hi
  rw [terminal_scroll_buffer]
  by_cases h1 : i < 1920
  · rw [if_pos h1]
    exact hP _ (by omega)
  · rw [if_neg h1, if_pos hi, hc]
    exact Or.inl (by decide)

theorem next_row_attrs (sz : Nat) (t : Terminal) (h : attr_inv t) :
    attr_inv (next_row sz t) := by
  unfold next_row
  simp only []
  split
  · exact terminal_scroll_attrs _ h
  · exact h

theorem terminal_putchar_attrs (sz : Nat) (t : Terminal) (c : Nat) (hc : c < 128)
    (h : attr_inv t) : attr_inv (terminal_putchar sz t c) := by
  have hv : cell_attr (vga_entry t.terminal_color c) = 0x07
      ∨ cell_attr (vga_entry t.terminal_color c) = 0x2F := by
    rw [h.1]
    exact Or.inl (cell_attr_vga_entry 7 c (by decide) hc)
  have hw : ∀ (idx : Nat) (col : Nat), attr_inv
      { t with terminal_buffer := write_cell t.terminal_buffer idx (vga_entry t.terminal_color c), terminal_column := col } :=
    fun idx _ => ⟨h.1, write_cell_attrs _ _ _ h.2 hv⟩
  unfold terminal_putchar
  show attr_inv (update_cursor sz _)
  have hu : ∀ u : Terminal, attr_inv u → attr_inv (update_cursor sz u) := fun u hu => hu
  apply hu
  split
  · exact next_row_attrs sz _ h
  · simp only []
    split
    · exact next_row_attrs sz _ (hw _ _)
    · exact hw _ _

theorem terminal_print_attrs (sz : Nat) (data : List Nat) (t : Terminal)
    (hd : ∀ c ∈ data, c < 128) (h : attr_inv t) : attr_inv (terminal_print sz t data) := by
  induction data generalizing t with
  | nil => exact h
  | cons c rest ih =>
    rw [terminal_print_cons]
    exact ih _ (fun x hx => hd x (List.mem_cons_of_mem c hx))
      (terminal_putchar_attrs sz t c (hd c (List.mem_cons_self c rest)) h)

theorem set_fullscreen_green_attrs (t : Terminal) (hc : t.terminal_color = 7) :
    attr_inv (set_fullscreen_green t) := by
  refine ⟨hc, ?_⟩
  intro i hi
  rw [set_fullscreen_green_buffer, if_pos hi]
  exact Or.inr (by decide)

theorem cursor_set_attrs (t : Terminal) (r c : Nat) (h : attr_inv t) :
    attr_inv { t with terminal_row := r, terminal_column := c } := h

theorem print_centered_attrs (sz : Nat) (t : Terminal) (text : List Nat) (row : Nat)
    (hd : ∀ c ∈ text, c < 128) (h : attr_inv t) :
    attr_inv (print_centered sz t text row) := by
  unfold print_centered
  exact terminal_print_attrs sz text _ hd h

theorem cmd_help_attrs (sz : Nat) (t : Terminal) (h : attr_inv t) :
    attr_inv (cmd_help sz t) := by
  unfold cmd_help
  exact cursor_set_attrs _ 20 0
    (terminal_print_attrs sz str_help_reboot _ (by decide) (cursor_set_attrs _ 15 20
    (terminal_print_attrs sz str_help_version _ (by decide) (cursor_set_attrs _ 14 20
    (terminal_print_attrs sz str_help_uptime _ (by decide) (cursor_set_attrs _ 13 20
    (terminal_print_attrs sz str_help_echo _ (by decide) (cursor_set_attrs _ 12 20
    (terminal_print_attrs sz str_help_clear _ (by decide) (cursor_set_attrs _ 11 20
    (terminal_print_attrs sz str_help_help _ (by decide) (cursor_set_attrs _ 10 20
    (print_centered_attrs sz _ str_help_header 8 (by decide)
    (set_fullscreen_green_attrs t h.1))))))))))))))

theorem cmd_clear_attrs (t : Terminal) (h : attr_inv t) : attr_inv (cmd_clear t) := by
  unfold cmd_clear
  exact cursor_set_attrs _ 0 0 (set_fullscreen_green_attrs t h.1)

theorem cmd_echo_attrs (sz : Nat) (t : Terminal) (args : List Nat)
    (hd : ∀ c ∈ args, c < 128) (h : attr_inv t) : attr_inv (cmd_echo sz t args) := by
  unfold cmd_echo
  split
  · exact cursor_set_attrs _ 20 0
      (print_centered_attrs sz _ args 12 hd (set_fullscreen_green_attrs t h.1))
  · exact h

theorem cmd_uptime_attrs (sz : Nat) (t : Terminal) (h : attr_inv t) :
    attr_inv (cmd_uptime sz t) := by
  unfold cmd_uptime
  exact cursor_set_attrs _ 20 0
    (print_centered_attrs sz _ str_uptime 12 (by decide) (set_fullscreen_green_attrs t h.1))

theorem cmd_version_attrs (sz : Nat) (t : Terminal) (h : attr_inv t) :
    attr_inv (cmd_version sz t) := by
  unfold cmd_version
  exact cursor_set_attrs _ 20 0
    (print_centered_attrs sz _ str_motto 13 (by decide)
    (print_centered_attrs sz _ str_version 12 (by decide) (set_fullscreen_green_attrs t h.1)))

theorem cmd_reboot_attrs (sz : Nat) (t : Terminal) (h : attr_inv t) :
    attr_inv (cmd_reboot sz t) := by
  unfold cmd_reboot
  exact cursor_set_attrs _ 20 0
    (print_centered_attrs sz _ str_rebooting 12 (by decide) (set_fullscreen_green_attrs t h.1))

theorem process_command_attrs (sz : Nat) (t : Terminal) (cmd : List Nat)
    (hd : ∀ c ∈ cmd, c < 128) (h : attr_inv t) : attr_inv (process_command sz t cmd).1 := by
  have hname : ∀ c ∈ (parse_command cmd).1, c < 128 :=
    fun c hc => hd c ((parse_command_mem cmd).1 c hc)
  have hargs : ∀ c ∈ (parse_command cmd).2, c < 128 :=
    fun c hc => hd c ((parse_command_mem cmd).2 c hc)
  unfold process_command
  split
  · exact h
  · simp only []
    split
    · exact cmd_help_attrs sz t h
    · split
      · exact cmd_clear_attrs t h
      · split
        · exact cmd_echo_attrs sz t _ hargs h
        · split
          · exact cmd_uptime_attrs sz t h
          · split
            · exact cmd_version_attrs sz t h
            · split
              · exact cmd_reboot_attrs sz t h
              · exact terminal_print_attrs sz str_hint _ (by decide)
                  (terminal_print_attrs sz _ _ hname
                  (terminal_print_attrs sz str_unknown _ (by decide) h))

theorem c_string_lt (buf : Nat → Nat) (h : ∀ j, buf j < 128) : ∀ c ∈ c_string buf, c < 128 := by
  intro c hc
  unfold c_string at hc
  have hm := (List.takeWhile_sublist _).subset hc
  obtain ⟨j, -, hj⟩ := List.mem_map.mp hm
  rw [← hj]
  exact h j

theorem cursor_back_attrs (t : Terminal) (h : attr_inv t) : attr_inv (cursor_back t) := by
  unfold cursor_back
  split
  · exact h
  · split
    · exact h
    · exact h

theorem collect_step_attrs (sz : Nat) (s : Shell) (c : Nat) (h : shell_attr_inv s) :
    shell_attr_inv (collect_step sz s c).1 := by
  obtain ⟨ht, hbuf⟩ := h
  have hw : ∀ (idx v : Nat), v < 128 → ∀ j, write_cell s.command_buffer idx v j < 128 := by
    intro idx v hv j
    unfold write_cell
    split
    · exact hv
    · exact hbuf j
  unfold collect_step
  split
  · exact ⟨ht, hbuf⟩
  · split
    · refine ⟨?_, hw _ 0 (by decide)⟩
      exact process_command_attrs sz _ _ (c_string_lt _ (hw _ 0 (by decide)))
        (terminal_putchar_attrs sz s.term 10 (by decide) ht)
    · split
      · split
        · refine ⟨?_, hbuf⟩
          have hb := cursor_back_attrs s.term ht
          exact ⟨hb.1, write_cell_attrs _ _ _ hb.2 (Or.inr (by decide))⟩
        · exact ⟨ht, hbuf⟩
      · split
        · rename_i hp
          exact ⟨terminal_putchar_attrs sz s.term c (by omega) ht, hw _ c (by omega)⟩
        · exact ⟨ht, hbuf⟩

theorem shell_prompt_attrs (sz : Nat) (s : Shell) (h : shell_attr_inv s) :
    shell_attr_inv (shell_prompt sz s) := by
  unfold shell_prompt
  exact ⟨terminal_print_attrs sz str_dollar _ (by decide) (cursor_set_attrs _ 20 0 h.1), h.2⟩

theorem shell_feed_attrs (sz : Nat) (s : Shell) (c : Nat) (h : shell_attr_inv s) :
    shell_attr_inv (shell_feed sz s c) := by
  unfold shell_feed
  split
  · exact h
  · simp only []
    split
    · exact shell_prompt_attrs sz _ (collect_step_attrs sz s c h)
    · exact collect_step_attrs sz s c h

theorem shell_poll_attrs (sz : Nat) (s : Shell) (scancode : Nat) (h : shell_attr_inv s) :
    shell_attr_inv (shell_poll sz s scancode) := by
  unfold shell_poll
  split
  · exact h
  · exact shell_feed_attrs sz _ _ h

theorem shell_start_attrs (sz : Nat) (s : Shell) (hc : s.term.terminal_color = 7)
    (hbuf : ∀ j, s.command_buffer j < 128) : shell_attr_inv (shell_start sz s) := by
  unfold shell_start
  apply shell_prompt_attrs
  refine ⟨?_, hbuf⟩
  exact cursor_set_attrs _ 20 0
    (print_centered_attrs sz _ [] 6 (by decide)
    (print_centered_attrs sz _ str_shell_hint 4 (by decide)
    (print_centered_attrs sz _ str_shell_title 2 (by decide)
    (set_fullscreen_green_attrs _ hc))))

theorem kernel_main_attrs (sz : Nat) (vga : Nat → Nat) :
    shell_attr_inv (kernel_main sz vga) := by
  unfold kernel_main
  apply shell_start_attrs
  · show (print_centered sz _ str_rule 13).terminal_color = 7
    rw [print_centered_color, print_centered_color, print_centered_color]
    rfl
  · intro j
    show (0 : Nat) < 128
    decide

theorem polls_attrs (sz : Nat) (scancodes : List Nat) (s : Shell) (h : shell_attr_inv s) :
    shell_attr_inv (scancodes.foldl (fun s b => shell_poll sz s b) s) := by
  induction scancodes generalizing s with
  | nil => exact h
  | cons b rest ih => exact ih _ (shell_poll_attrs sz s b h)

theorem shell_run_attrs (sz : Nat) (cs : List Nat) (s : Shell) (h : shell_attr_inv s) :
    shell_attr_inv (shell_run sz s cs) := by
  induction cs generalizing s with
  | nil => exact h
  | cons c rest ih => exact ih _ (shell_feed_attrs sz s c h)

set_option maxRecDepth 100000 in
/-- C20. The current attribute is constant: `terminal_clear`, `terminal_scroll`,
`terminal_putchar`, `terminal_print`, `print_centered`, `set_fullscreen_green`,
the six command handlers, `process_command` and the Collect step all leave
`terminal_color` as it was; its initial value is 7, so it is 7 in every state
the kernel reaches from boot, whatever the display memory held and whatever
bytes the keyboard sends, and in every such state every cell of the grid
carries the attribute 0x07 or 0x2F. A cell stored by `terminal_putchar` under
the attribute 7 for a byte below 128 carries 0x07; the cells painted by
`set_fullscreen_green` and the cell blanked by backspace carry 0x2F. -/
theorem attribute_constant (sz : Nat) :
    (∀ t : Terminal, (terminal_clear t).terminal_color = t.terminal_color)
    ∧ (∀ t : Terminal, (terminal_scroll t).terminal_color = t.terminal_color)
    ∧ (∀ (t : Terminal) (c : Nat), (terminal_putchar sz t c).terminal_color = t.terminal_color)
    ∧ (∀ (t : Terminal) (data : List Nat),
        (terminal_print sz t data).terminal_color = t.terminal_color)
    ∧ (∀ (t : Terminal) (text : List Nat) (row : Nat),
        (print_centered sz t text row).terminal_color = t.terminal_color)
    ∧ (∀ t : Terminal, (set_fullscreen_green t).terminal_color = t.terminal_color)
    ∧ (∀ t : Terminal, (cmd_help sz t).terminal_color = t.terminal_color)
    ∧ (∀ t : Terminal, (cmd_clear t).terminal_color = t.terminal_color)
    ∧ (∀ (t : Terminal) (args : List Nat),
        (cmd_echo sz t args).terminal_color = t.terminal_color)
    ∧ (∀ t : Terminal, (cmd_uptime sz t).terminal_color = t.terminal_color)
    ∧ (∀ t : Terminal, (cmd_version sz t).terminal_color = t.terminal_color)
    ∧ (∀ t : Terminal, (cmd_reboot sz t).terminal_color = t.terminal_color)
    ∧ (∀ (t : Terminal) (cmd : List Nat),
        (process_command sz t cmd).1.terminal_color = t.terminal_color)
    ∧ (∀ (s : Shell) (c : Nat),
        (collect_step sz s c).1.term.terminal_color = s.term.terminal_color)
    ∧ boot_terminal.terminal_color = 7
    ∧ (∀ (vga : Nat → Nat) (scancodes : List Nat),
        (scancodes.foldl (fun s b => shell_poll sz s b) (kernel_main sz vga)).term.terminal_color
          = 7
        ∧ ∀ i, i < 2000 →
            cell_attr ((scancodes.foldl (fun s b => shell_poll sz s b)
                (kernel_main sz vga)).term.terminal_buffer i) = 0x07
            ∨ cell_attr ((scancodes.foldl (fun s b => shell_poll sz s b)
                (kernel_main sz vga)).term.terminal_buffer i) = 0x2F)
    ∧ (∀ (vga : Nat → Nat) (cs : List Nat),
        (shell_run sz (kernel_main sz vga) cs).term.terminal_color = 7
        ∧ ∀ i, i < 2000 →
            cell_attr ((shell_run sz (kernel_main sz vga) cs).term.terminal_buffer i) = 0x07
            ∨ cell_attr ((shell_run sz (kernel_main sz vga) cs).term.terminal_buffer i) = 0x2F)
    ∧ (∀ c, c < 128 → cell_attr (vga_entry 7 c) = 0x07)
    ∧ (∀ (t : Terminal) (i : Nat), i < 2000 →
        cell_attr ((set_fullscreen_green t).terminal_buffer i) = 0x2F)
    ∧ (∀ s : Shell, 0 < s.command_index →
        cell_attr ((collect_step sz s 8).1.term.terminal_buffer
          (cell_index sz (((cursor_back s.term).terminal_row * 80
            + (cursor_back s.term).terminal_column) % sz)))
          = 0x2F) := by
  refine ⟨fun _ => rfl, fun _ => rfl, terminal_putchar_color sz,
    fun t data => terminal_print_color sz data t, print_centered_color sz,
    fun _ => rfl, cmd_help_color sz, fun _ => rfl, cmd_echo_color sz, cmd_uptime_color sz,
    cmd_version_color sz, cmd_reboot_color sz, process_command_color sz,
    collect_step_color sz, rfl, ?_, ?_, ?_, ?_, ?_⟩
  · intro vga scancodes
    have h := polls_attrs sz scancodes _ (kernel_main_attrs sz vga)
    exact ⟨h.1.1, h.1.2⟩
  · intro vga cs
    have h := shell_run_attrs sz cs _ (kernel_main_attrs sz vga)
    exact ⟨h.1.1, h.1.2⟩
  · intro c hc
    exact cell_attr_vga_entry 7 c (by decide) hc
  · intro t i hi
    rw [set_fullscreen_green_buffer, if_pos hi]
    decide
  · intro s hidx
    rw [collect_step_backspace_eq sz s hidx]
    show cell_attr (write_cell _ _ _ _) = _
    simp only [write_cell, VGA_WIDTH, if_true]
    decide

end Kernel
